import Mathlib

/-!
Verification of the scheduling core of the `abra` repository.

The development shallowly embeds the recurring-job projection engine of
`get-schedule.js` and the mutation handler of `update-schedule.js`.

Modelling conventions:
* A JavaScript `Date` produced by `new Date(year, month, day)` is modelled by
  its day number (an `Int`, days since 1970-01-01) in the proleptic Gregorian
  calendar, with local time equal to UTC and no daylight-saving shifts.  Under
  this convention `getTime` differences are exact multiples of 86400000, so the
  source's `Math.round(diffMs / 86400000)` is the exact day difference.
* JavaScript strings are Lean `String`s; character-level work uses `.data`.
* `Number(s)` is modelled by `toNumber`, which is only ever applied (in any
  theorem of this file) to all-digit strings, where it agrees with JavaScript.
* Objects read from JSON are modelled by structures with `Option` fields;
  `none` models an absent (or, for array-valued fields, non-array) value.
-/

/-! ### Calendar arithmetic (model of the JavaScript `Date` environment)

`daysFromCivil` / `civilFromDays` convert between a Gregorian calendar triple
and a day number (days since 1970-01-01), following the standard era-based
algorithm.  All divisions are floor divisions (`Int./` is Euclidean division,
which agrees with floor division for the positive constant divisors used
here). -/

def daysFromCivil (y m d : Int) : Int :=
  let y' := if m ≤ 2 then y - 1 else y
  let era := y' / 400
  let yoe := y' - era * 400
  let mp := (m + 9) % 12
  let doy := (153 * mp + 2) / 5 + d - 1
  let doe := 365 * yoe + yoe / 4 - yoe / 100 + doy
  era * 146097 + doe - 719468

def civilFromDays (z : Int) : Int × Int × Int :=
  let z' := z + 719468
  let era := z' / 146097
  let doe := z' % 146097
  let yoe := (doe - doe / 1460 + doe / 36524 - doe / 146096) / 365
  let y := yoe + era * 400
  let doy := doe - (365 * yoe + yoe / 4 - yoe / 100)
  let mp := (5 * doy + 2) / 153
  let d := doy - (153 * mp + 2) / 5 + 1
  let m := if mp < 10 then mp + 3 else mp - 9
  (if m ≤ 2 then y + 1 else y, m, d)

def isLeapYear (y : Int) : Bool :=
  y % 4 = 0 && (y % 100 ≠ 0 || y % 400 = 0)

def daysInMonth (y m : Int) : Int :=
  if m = 2 then (if isLeapYear y then 29 else 28)
  else if m = 4 ∨ m = 6 ∨ m = 9 ∨ m = 11 then 30
  else 31

/-- A calendar-valid (proleptic Gregorian) day/month/year combination. -/
def validTriple (y m d : Int) : Prop :=
  1 ≤ m ∧ m ≤ 12 ∧ 1 ≤ d ∧ d ≤ daysInMonth y m

instance (y m d : Int) : Decidable (validTriple y m d) := by
  unfold validTriple; infer_instance

/-- `new Date(year, monthIndex, day)` (called in the source as
`new Date(year, month - 1, day)`), modelled as a day number.  JavaScript maps
a `year` argument in `0..99` to `1900 + year` and normalizes out-of-range
month indices and days by carrying. -/
def mkDate (year month day : Int) : Int :=
  let yAdj := if 0 ≤ year ∧ year ≤ 99 then year + 1900 else year
  let t := yAdj * 12 + (month - 1)
  daysFromCivil (t / 12) (t % 12 + 1) 1 + (day - 1)

/-- JavaScript `date.getDate()` (day of month). -/
def getDate (z : Int) : Int := (civilFromDays z).2.2

/-- JavaScript `date.getMonth()` (0-based month). -/
def getMonth (z : Int) : Int := (civilFromDays z).2.1 - 1

/-- JavaScript `date.getFullYear()`. -/
def getFullYear (z : Int) : Int := (civilFromDays z).1

/-- JavaScript `date.getDay()` (0 = Sunday); 1970-01-01 was a Thursday. -/
def getDay (z : Int) : Int := (z + 4) % 7

/-- JavaScript `date.getTime()` in milliseconds (DST-free model). -/
def getTime (z : Int) : Int := z * 86400000

/-! #### Round trip `civilFromDays ∘ daysFromCivil = id` on valid triples -/

set_option maxHeartbeats 4000000 in
/-- Core of the inverse computation: recovering the year-of-era from the
day-of-era.  `doy = 365` (the shifted calendar's Feb 29) occurs only in the
leap years of the 400-year cycle. -/
lemma yearOfEra_inv (yoe doy : Int) (h1 : 0 ≤ yoe) (h2 : yoe ≤ 399) (h3 : 0 ≤ doy)
    (h4 : doy ≤ 364 ∨ (doy = 365 ∧ (yoe + 1) % 4 = 0 ∧ ((yoe + 1) % 100 ≠ 0 ∨ yoe = 399))) :
    (365 * yoe + yoe / 4 - yoe / 100 + doy - (365 * yoe + yoe / 4 - yoe / 100 + doy) / 1460 +
        (365 * yoe + yoe / 4 - yoe / 100 + doy) / 36524 -
        (365 * yoe + yoe / 4 - yoe / 100 + doy) / 146096) / 365 = yoe := by
  interval_cases yoe <;> omega

lemma civilFromDays_decomp (era yoe doy mp mOut dOut yOut : Int)
    (h1 : 0 ≤ yoe) (h2 : yoe ≤ 399) (h3 : 0 ≤ doy)
    (h4 : doy ≤ 364 ∨ (doy = 365 ∧ (yoe + 1) % 4 = 0 ∧ ((yoe + 1) % 100 ≠ 0 ∨ yoe = 399)))
    (hmp : mp = (5 * doy + 2) / 153)
    (hdo : dOut = doy - (153 * mp + 2) / 5 + 1)
    (hmo : mOut = if mp < 10 then mp + 3 else mp - 9)
    (hyo : yOut = if mOut ≤ 2 then yoe + era * 400 + 1 else yoe + era * 400) :
    civilFromDays (era * 146097 + (365 * yoe + yoe / 4 - yoe / 100 + doy) - 719468) =
      (yOut, mOut, dOut) := by
  have h5 : era * 146097 + (365 * yoe + yoe / 4 - yoe / 100 + doy) - 719468 + 719468
      = 365 * yoe + yoe / 4 - yoe / 100 + doy + era * 146097 := by ring
  have h6 : (365 * yoe + yoe / 4 - yoe / 100 + doy + era * 146097) / 146097 = era := by omega
  have h7 : (365 * yoe + yoe / 4 - yoe / 100 + doy + era * 146097) % 146097
      = 365 * yoe + yoe / 4 - yoe / 100 + doy := by omega
  have h8 := yearOfEra_inv yoe doy h1 h2 h3 h4
  have h9 : 365 * yoe + yoe / 4 - yoe / 100 + doy - (365 * yoe + yoe / 4 - yoe / 100) = doy := by
    ring
  simp only [civilFromDays]
  rw [h5, h6, h7, h8, h9, ← hmp, ← hdo, ← hmo, ← hyo]

/-- The era-based conversion is injectively inverted on calendar-valid
triples. -/
lemma civil_roundtrip (y m d : Int) (h : validTriple y m d) :
    civilFromDays (daysFromCivil y m d) = (y, m, d) := by
  obtain ⟨hm1, hm2, hd1, hd2⟩ := h
  interval_cases m
  · -- January (shifted month 10, y' = y - 1)
    have hdm : daysInMonth y 1 = 31 := by simp [daysInMonth]
    rw [hdm] at hd2
    have harg : daysFromCivil y 1 d = (y - 1) / 400 * 146097 +
        (365 * (y - 1 - (y - 1) / 400 * 400) + (y - 1 - (y - 1) / 400 * 400) / 4 -
          (y - 1 - (y - 1) / 400 * 400) / 100 + (d + 305)) - 719468 := by
      simp only [daysFromCivil]; omega
    rw [harg,
      civilFromDays_decomp ((y - 1) / 400) (y - 1 - (y - 1) / 400 * 400) (d + 305) 10 1 d y
        (by omega) (by omega) (by omega) (by left; omega) (by omega) (by omega)
        (by norm_num) (by norm_num)]
  · -- February (shifted month 11, y' = y - 1); day 29 only in leap years
    have hdm : daysInMonth y 2 = if isLeapYear y then 29 else 28 := by simp [daysInMonth]
    rw [hdm] at hd2
    have hleap : d ≤ 28 ∨ (d = 29 ∧ y % 4 = 0 ∧ (y % 100 ≠ 0 ∨ y % 400 = 0)) := by
      by_cases hL : isLeapYear y
      · simp only [if_pos hL] at hd2
        simp only [isLeapYear, Bool.and_eq_true, Bool.or_eq_true, decide_eq_true_eq,
          bne_iff_ne, ne_eq] at hL
        omega
      · simp only [if_neg hL] at hd2; omega
    have harg : daysFromCivil y 2 d = (y - 1) / 400 * 146097 +
        (365 * (y - 1 - (y - 1) / 400 * 400) + (y - 1 - (y - 1) / 400 * 400) / 4 -
          (y - 1 - (y - 1) / 400 * 400) / 100 + (d + 336)) - 719468 := by
      simp only [daysFromCivil]; omega
    rw [harg,
      civilFromDays_decomp ((y - 1) / 400) (y - 1 - (y - 1) / 400 * 400) (d + 336) 11 2 d y
        (by omega) (by omega) (by omega) (by omega) (by omega) (by omega)
        (by norm_num) (by norm_num)]
  · -- March (shifted month 0)
    have hdm : daysInMonth y 3 = 31 := by simp [daysInMonth]
    rw [hdm] at hd2
    have harg : daysFromCivil y 3 d = y / 400 * 146097 +
        (365 * (y - y / 400 * 400) + (y - y / 400 * 400) / 4 - (y - y / 400 * 400) / 100 +
          (d - 1)) - 719468 := by
      simp only [daysFromCivil]; omega
    rw [harg,
      civilFromDays_decomp (y / 400) (y - y / 400 * 400) (d - 1) 0 3 d y
        (by omega) (by omega) (by omega) (by left; omega) (by omega) (by omega)
        (by norm_num) (by norm_num)]
  · have hdm : daysInMonth y 4 = 30 := by simp [daysInMonth]
    rw [hdm] at hd2
    have harg : daysFromCivil y 4 d = y / 400 * 146097 +
        (365 * (y - y / 400 * 400) + (y - y / 400 * 400) / 4 - (y - y / 400 * 400) / 100 +
          (d + 30)) - 719468 := by
      simp only [daysFromCivil]; omega
    rw [harg,
      civilFromDays_decomp (y / 400) (y - y / 400 * 400) (d + 30) 1 4 d y
        (by omega) (by omega) (by omega) (by left; omega) (by omega) (by omega)
        (by norm_num) (by norm_num)]
  · have hdm : daysInMonth y 5 = 31 := by simp [daysInMonth]
    rw [hdm] at hd2
    have harg : daysFromCivil y 5 d = y / 400 * 146097 +
        (365 * (y - y / 400 * 400) + (y - y / 400 * 400) / 4 - (y - y / 400 * 400) / 100 +
          (d + 60)) - 719468 := by
      simp only [daysFromCivil]; omega
    rw [harg,
      civilFromDays_decomp (y / 400) (y - y / 400 * 400) (d + 60) 2 5 d y
        (by omega) (by omega) (by omega) (by left; omega) (by omega) (by omega)
        (by norm_num) (by norm_num)]
  · have hdm : daysInMonth y 6 = 30 := by simp [daysInMonth]
    rw [hdm] at hd2
    have harg : daysFromCivil y 6 d = y / 400 * 146097 +
        (365 * (y - y / 400 * 400) + (y - y / 400 * 400) / 4 - (y - y / 400 * 400) / 100 +
          (d + 91)) - 719468 := by
      simp only [daysFromCivil]; omega
    rw [harg,
      civilFromDays_decomp (y / 400) (y - y / 400 * 400) (d + 91) 3 6 d y
        (by omega) (by omega) (by omega) (by left; omega) (by omega) (by omega)
        (by norm_num) (by norm_num)]
  · have hdm : daysInMonth y 7 = 31 := by simp [daysInMonth]
    rw [hdm] at hd2
    have harg : daysFromCivil y 7 d = y / 400 * 146097 +
        (365 * (y - y / 400 * 400) + (y - y / 400 * 400) / 4 - (y - y / 400 * 400) / 100 +
          (d + 121)) - 719468 := by
      simp only [daysFromCivil]; omega
    rw [harg,
      civilFromDays_decomp (y / 400) (y - y / 400 * 400) (d + 121) 4 7 d y
        (by omega) (by omega) (by omega) (by left; omega) (by omega) (by omega)
        (by norm_num) (by norm_num)]
  · have hdm : daysInMonth y 8 = 31 := by simp [daysInMonth]
    rw [hdm] at hd2
    have harg : daysFromCivil y 8 d = y / 400 * 146097 +
        (365 * (y - y / 400 * 400) + (y - y / 400 * 400) / 4 - (y - y / 400 * 400) / 100 +
          (d + 152)) - 719468 := by
      simp only [daysFromCivil]; omega
    rw [harg,
      civilFromDays_decomp (y / 400) (y - y / 400 * 400) (d + 152) 5 8 d y
        (by omega) (by omega) (by omega) (by left; omega) (by omega) (by omega)
        (by norm_num) (by norm_num)]
  · have hdm : daysInMonth y 9 = 30 := by simp [daysInMonth]
    rw [hdm] at hd2
    have harg : daysFromCivil y 9 d = y / 400 * 146097 +
        (365 * (y - y / 400 * 400) + (y - y / 400 * 400) / 4 - (y - y / 400 * 400) / 100 +
          (d + 183)) - 719468 := by
      simp only [daysFromCivil]; omega
    rw [harg,
      civilFromDays_decomp (y / 400) (y - y / 400 * 400) (d + 183) 6 9 d y
        (by omega) (by omega) (by omega) (by left; omega) (by omega) (by omega)
        (by norm_num) (by norm_num)]
  · have hdm : daysInMonth y 10 = 31 := by simp [daysInMonth]
    rw [hdm] at hd2
    have harg : daysFromCivil y 10 d = y / 400 * 146097 +
        (365 * (y - y / 400 * 400) + (y - y / 400 * 400) / 4 - (y - y / 400 * 400) / 100 +
          (d + 213)) - 719468 := by
      simp only [daysFromCivil]; omega
    rw [harg,
      civilFromDays_decomp (y / 400) (y - y / 400 * 400) (d + 213) 7 10 d y
        (by omega) (by omega) (by omega) (by left; omega) (by omega) (by omega)
        (by norm_num) (by norm_num)]
  · have hdm : daysInMonth y 11 = 30 := by simp [daysInMonth]
    rw [hdm] at hd2
    have harg : daysFromCivil y 11 d = y / 400 * 146097 +
        (365 * (y - y / 400 * 400) + (y - y / 400 * 400) / 4 - (y - y / 400 * 400) / 100 +
          (d + 244)) - 719468 := by
      simp only [daysFromCivil]; omega
    rw [harg,
      civilFromDays_decomp (y / 400) (y - y / 400 * 400) (d + 244) 8 11 d y
        (by omega) (by omega) (by omega) (by left; omega) (by omega) (by omega)
        (by norm_num) (by norm_num)]
  · have hdm : daysInMonth y 12 = 31 := by simp [daysInMonth]
    rw [hdm] at hd2
    have harg : daysFromCivil y 12 d = y / 400 * 146097 +
        (365 * (y - y / 400 * 400) + (y - y / 400 * 400) / 4 - (y - y / 400 * 400) / 100 +
          (d + 274)) - 719468 := by
      simp only [daysFromCivil]; omega
    rw [harg,
      civilFromDays_decomp (y / 400) (y - y / 400 * 400) (d + 274) 9 12 d y
        (by omega) (by omega) (by omega) (by left; omega) (by omega) (by omega)
        (by norm_num) (by norm_num)]

/-! #### Successor-day iteration: surjectivity of `daysFromCivil` -/

lemma daysInMonth_ge (y m : Int) : 28 ≤ daysInMonth y m := by
  unfold daysInMonth
  split_ifs <;> omega

lemma daysInMonth_le (y m : Int) : daysInMonth y m ≤ 31 := by
  unfold daysInMonth
  split_ifs <;> omega

/-- The calendar successor of a valid day/month/year triple. -/
def nextDay (y m d : Int) : Int × Int × Int :=
  if d < daysInMonth y m then (y, m, d + 1)
  else if m < 12 then (y, m + 1, 1)
  else (y + 1, 1, 1)

def nthNext (k : Nat) (t : Int × Int × Int) : Int × Int × Int :=
  match k with
  | 0 => t
  | k + 1 =>
    let t' := nthNext k t
    nextDay t'.1 t'.2.1 t'.2.2

lemma isLeapYear_iff (y : Int) :
    isLeapYear y = true ↔ y % 4 = 0 ∧ (y % 100 ≠ 0 ∨ y % 400 = 0) := by
  simp only [isLeapYear, Bool.and_eq_true, Bool.or_eq_true, decide_eq_true_eq, bne_iff_ne, ne_eq]

lemma nextDay_spec (y m d : Int) (h : validTriple y m d) :
    validTriple (nextDay y m d).1 (nextDay y m d).2.1 (nextDay y m d).2.2 ∧
      daysFromCivil (nextDay y m d).1 (nextDay y m d).2.1 (nextDay y m d).2.2 =
        daysFromCivil y m d + 1 := by
  obtain ⟨hm1, hm2, hd1, hd2⟩ := h
  unfold nextDay
  by_cases hlt : d < daysInMonth y m
  · rw [if_pos hlt]
    constructor
    · show validTriple y m (d + 1)
      exact ⟨hm1, hm2, by omega, by omega⟩
    · show daysFromCivil y m (d + 1) = daysFromCivil y m d + 1
      simp only [daysFromCivil]
      omega
  · rw [if_neg hlt]
    have hd : d = daysInMonth y m := by omega
    by_cases hm12 : m < 12
    · rw [if_pos hm12]
      constructor
      · show validTriple y (m + 1) 1
        exact ⟨by omega, by omega, by omega, by have := daysInMonth_ge y (m + 1); omega⟩
      · show daysFromCivil y (m + 1) 1 = daysFromCivil y m d + 1
        interval_cases m
        · have : d = 31 := by simpa [daysInMonth] using hd
          subst this
          simp only [daysFromCivil]
          norm_num <;> omega
        · by_cases hL : isLeapYear y = true
          · have hLp := (isLeapYear_iff y).mp hL
            have : d = 29 := by simp [daysInMonth, hL] at hd; omega
            subst this
            simp only [daysFromCivil]
            norm_num <;> omega
          · have hLp : ¬(y % 4 = 0 ∧ (y % 100 ≠ 0 ∨ y % 400 = 0)) := fun hc =>
              hL ((isLeapYear_iff y).mpr hc)
            have : d = 28 := by simp [daysInMonth, hL] at hd; omega
            subst this
            simp only [daysFromCivil]
            norm_num <;> omega
        · have : d = 31 := by simpa [daysInMonth] using hd
          subst this
          simp only [daysFromCivil]
          norm_num <;> omega
        · have : d = 30 := by simpa [daysInMonth] using hd
          subst this
          simp only [daysFromCivil]
          norm_num <;> omega
        · have : d = 31 := by simpa [daysInMonth] using hd
          subst this
          simp only [daysFromCivil]
          norm_num <;> omega
        · have : d = 30 := by simpa [daysInMonth] using hd
          subst this
          simp only [daysFromCivil]
          norm_num <;> omega
        · have : d = 31 := by simpa [daysInMonth] using hd
          subst this
          simp only [daysFromCivil]
          norm_num <;> omega
        · have : d = 31 := by simpa [daysInMonth] using hd
          subst this
          simp only [daysFromCivil]
          norm_num <;> omega
        · have : d = 30 := by simpa [daysInMonth] using hd
          subst this
          simp only [daysFromCivil]
          norm_num <;> omega
        · have : d = 31 := by simpa [daysInMonth] using hd
          subst this
          simp only [daysFromCivil]
          norm_num <;> omega
        · have : d = 30 := by simpa [daysInMonth] using hd
          subst this
          simp only [daysFromCivil]
          norm_num <;> omega
    · rw [if_neg hm12]
      have hm : m = 12 := by omega
      subst hm
      have : d = 31 := by simpa [daysInMonth] using hd
      subst this
      constructor
      · show validTriple (y + 1) 1 1
        exact ⟨by omega, by omega, by omega, by have := daysInMonth_ge (y + 1) 1; omega⟩
      · show daysFromCivil (y + 1) 1 1 = daysFromCivil y 12 31 + 1
        simp only [daysFromCivil]
        norm_num <;> omega

lemma nthNext_spec (k : Nat) (t : Int × Int × Int) (h : validTriple t.1 t.2.1 t.2.2) :
    validTriple (nthNext k t).1 (nthNext k t).2.1 (nthNext k t).2.2 ∧
      daysFromCivil (nthNext k t).1 (nthNext k t).2.1 (nthNext k t).2.2 =
        daysFromCivil t.1 t.2.1 t.2.2 + k := by
  induction k with
  | zero => simpa [nthNext] using h
  | succ k ih =>
    obtain ⟨ihv, ihd⟩ := ih
    obtain ⟨hv, hstep⟩ := nextDay_spec _ _ _ ihv
    refine ⟨hv, ?_⟩
    simp only [nthNext]
    push_cast
    omega

/-- Every day number at or after 1 January of year 90 is `daysFromCivil` of
some calendar-valid triple. -/
lemma daysFromCivil_surj (z : Int) (hz : daysFromCivil 90 1 1 ≤ z) :
    ∃ y m d, validTriple y m d ∧ daysFromCivil y m d = z := by
  have hbase : validTriple 90 1 1 := by decide
  obtain ⟨hv, hd⟩ := nthNext_spec (z - daysFromCivil 90 1 1).toNat (90, 1, 1) hbase
  have he : daysFromCivil ((90 : Int), (1 : Int), (1 : Int)).1 ((90 : Int), (1 : Int), (1 : Int)).2.1
      ((90 : Int), (1 : Int), (1 : Int)).2.2 = daysFromCivil 90 1 1 := rfl
  rw [he] at hd
  refine ⟨_, _, _, hv, ?_⟩
  rw [hd]
  have : ((z - daysFromCivil 90 1 1).toNat : Int) = z - daysFromCivil 90 1 1 :=
    Int.toNat_of_nonneg (by omega)
  omega

/-- `civilFromDays` yields a calendar-valid triple on the range of day numbers
reachable from the handlers (anything at or after year 90). -/
lemma civilFromDays_valid (z : Int) (hz : daysFromCivil 90 1 1 ≤ z) :
    validTriple (civilFromDays z).1 (civilFromDays z).2.1 (civilFromDays z).2.2 := by
  obtain ⟨y, m, d, hv, hd⟩ := daysFromCivil_surj z hz
  rw [← hd, civil_roundtrip y m d hv]
  exact hv

/-! ### Date Key codec (DD-MM-YYYY strings)

`isValidDate` embeds `isValidDate` of `update-schedule.js`; `parseDateKey` and
`formatDateKey` embed the helpers of `get-schedule.js`.  JavaScript strings
are `String`; `split('-')` is `jsSplit`; `Number` on the all-digit substrings
produced by the regex is `toNumber`. -/

def isDigitChar (c : Char) : Bool := 48 ≤ c.toNat && c.toNat ≤ 57

def digitChar (n : Nat) : Char := Char.ofNat (48 + n)

def splitDash : List Char → List Char → List (List Char)
  | [], acc => [acc.reverse]
  | c :: rest, acc => if c = '-' then acc.reverse :: splitDash rest [] else splitDash rest (c :: acc)

/-- JavaScript `s.split('-')`. -/
def jsSplit (cs : List Char) : List (List Char) := splitDash cs []

/-- JavaScript `Number(s)` for all-digit strings (the only inputs on which any
theorem below depends on it). -/
def toNumber (cs : List Char) : Nat := cs.foldl (fun a c => a * 10 + (c.toNat - 48)) 0

/-- The regex `^\d{2}-\d{2}-\d{4}$` of `isValidDate`. -/
def matchesDatePat : List Char → Bool
  | [d1, d2, s1, m1, m2, s2, y1, y2, y3, y4] =>
    isDigitChar d1 && isDigitChar d2 && s1 == '-' && isDigitChar m1 && isDigitChar m2 &&
      s2 == '-' && isDigitChar y1 && isDigitChar y2 && isDigitChar y3 && isDigitChar y4
  | _ => false

/-- `isValidDate` from `update-schedule.js`: regex test, then reconstruct the
date and require day, month and year to survive the round trip. -/
def isValidDate (dateStr : String) : Bool :=
  if !matchesDatePat dateStr.data then false
  else
    match jsSplit dateStr.data with
    | [ds, ms, ys] =>
      let day : Int := (toNumber ds : Nat)
      let month : Int := (toNumber ms : Nat)
      let year : Int := (toNumber ys : Nat)
      let date := mkDate year month day
      getDate date == day && getMonth date == month - 1 && getFullYear date == year
    | _ => false

/-- The `!dateStr || typeof dateStr !== 'string'` guard of `isValidDate` for a
possibly-absent request field. -/
def isValidDateField : Option String → Bool
  | none => false
  | some s => isValidDate s

/-- `parseDateKey` from `get-schedule.js`: split on `-`, map `Number`, build a
`Date`.  A string with fewer than three parts yields an Invalid Date in
JavaScript; the model returns day number 0 there, a value no theorem below
depends on. -/
def parseDateKey (dateKey : String) : Int :=
  match jsSplit dateKey.data with
  | ds :: ms :: ys :: _ => mkDate (toNumber ys : Nat) (toNumber ms : Nat) (toNumber ds : Nat)
  | _ => 0

/-- `String(n).padStart(2, '0')` for the short strings produced by the date
components. -/
def padStart2 (cs : List Char) : List Char := List.replicate (2 - cs.length) '0' ++ cs

/-- Decimal digits of a natural number (fuelled so that it reduces inside the
kernel; the fuel `n + 1` always suffices). -/
def natToCharsAux : Nat → Nat → List Char
  | 0, _ => []
  | fuel + 1, n => if n < 10 then [digitChar n] else natToCharsAux fuel (n / 10) ++ [digitChar (n % 10)]

/-- Decimal digits of a natural number, as JavaScript `String(n)`. -/
def natToChars (n : Nat) : List Char := natToCharsAux (n + 1) n

/-- JavaScript `String(n)` for an integer. -/
def intToChars (n : Int) : List Char :=
  if n < 0 then '-' :: natToChars (-n).toNat else natToChars n.toNat

/-- `formatDateKey` from `get-schedule.js`. -/
def formatDateKey (z : Int) : String :=
  let day := padStart2 (intToChars (getDate z))
  let month := padStart2 (intToChars (getMonth z + 1))
  let year := intToChars (getFullYear z)
  String.mk (day ++ '-' :: (month ++ '-' :: year))

/-! #### Codec lemmas -/

lemma mkDate_eq (y m d : Int) (hy1 : 100 ≤ y) (hm1 : 1 ≤ m) (hm2 : m ≤ 12) :
    mkDate y m d = daysFromCivil y m d := by
  simp only [mkDate]
  rw [if_neg (by omega : ¬(0 ≤ y ∧ y ≤ 99))]
  rw [show (y * 12 + (m - 1)) / 12 = y by omega, show (y * 12 + (m - 1)) % 12 + 1 = m by omega]
  simp only [daysFromCivil]
  omega

lemma mkDate_ge (year month day : Int) (h1 : 0 ≤ year) (h2 : year ≤ 9999)
    (h3 : 0 ≤ month) (h4 : month ≤ 99) (h5 : 0 ≤ day) (h6 : day ≤ 99) :
    daysFromCivil 90 1 1 ≤ mkDate year month day := by
  simp only [mkDate, daysFromCivil]
  split_ifs <;> omega

lemma digitChar_toNat (n : Nat) (h : n < 10) : (digitChar n).toNat = 48 + n := by
  interval_cases n <;> decide

lemma digitChar_isDigit (n : Nat) (h : n < 10) : isDigitChar (digitChar n) = true := by
  interval_cases n <;> decide

lemma digitChar_ne_dash (n : Nat) (h : n < 10) : ¬(digitChar n = '-') := by
  interval_cases n <;> decide

lemma natToCharsAux_congr (f1 : Nat) : ∀ f2 n, n < f1 → n < f2 →
    natToCharsAux f1 n = natToCharsAux f2 n := by
  induction f1 with
  | zero => intro f2 n h1 _; omega
  | succ f1 ih =>
    intro f2 n h1 h2
    cases f2 with
    | zero => omega
    | succ f2 =>
      simp only [natToCharsAux]
      by_cases h10 : n < 10
      · rw [if_pos h10, if_pos h10]
      · rw [if_neg h10, if_neg h10, ih f2 (n / 10) (by omega) (by omega)]

lemma natToChars_small (n : Nat) (h : n < 10) : natToChars n = [digitChar n] := by
  simp only [natToChars, natToCharsAux, if_pos h]

lemma natToChars_step (n : Nat) (h : ¬n < 10) :
    natToChars n = natToChars (n / 10) ++ [digitChar (n % 10)] := by
  simp only [natToChars, natToCharsAux, if_neg h]
  rw [natToCharsAux_congr n (n / 10 + 1) (n / 10) (by omega) (by omega)]
  rfl

lemma pad2_eq (n : Nat) (h : n ≤ 99) :
    padStart2 (natToChars n) = [digitChar (n / 10), digitChar (n % 10)] := by
  by_cases h10 : n < 10
  · rw [natToChars_small n h10]
    have h0 : n / 10 = 0 := by omega
    have hn : n % 10 = n := by omega
    rw [h0, hn]
    simp [padStart2]
    decide
  · rw [natToChars_step n h10, natToChars_small _ (by omega)]
    simp [padStart2]

lemma natToChars_four (n : Nat) (h1 : 1000 ≤ n) (h2 : n ≤ 9999) :
    natToChars n = [digitChar (n / 1000), digitChar (n / 100 % 10), digitChar (n / 10 % 10),
      digitChar (n % 10)] := by
  rw [natToChars_step n (by omega), natToChars_step (n / 10) (by omega),
    natToChars_step (n / 10 / 10) (by omega), natToChars_small (n / 10 / 10 / 10) (by omega)]
  rw [show n / 10 / 10 / 10 = n / 1000 by omega, show n / 10 / 10 % 10 = n / 100 % 10 by omega]
  simp

lemma toNumber_two (p q : Nat) (hp : p < 10) (hq : q < 10) :
    toNumber [digitChar p, digitChar q] = 10 * p + q := by
  simp [toNumber, digitChar_toNat p hp, digitChar_toNat q hq]
  ring

lemma toNumber_four (p q r s : Nat) (hp : p < 10) (hq : q < 10) (hr : r < 10) (hs : s < 10) :
    toNumber [digitChar p, digitChar q, digitChar r, digitChar s] =
      1000 * p + 100 * q + 10 * r + s := by
  simp [toNumber, digitChar_toNat p hp, digitChar_toNat q hq, digitChar_toNat r hr,
    digitChar_toNat s hs]
  ring

lemma toNumber_two_le (a b : Char) (ha : isDigitChar a = true) (hb : isDigitChar b = true) :
    toNumber [a, b] ≤ 99 := by
  simp [isDigitChar] at ha hb
  simp [toNumber]
  omega

lemma toNumber_four_le (a b c d : Char) (ha : isDigitChar a = true) (hb : isDigitChar b = true)
    (hc : isDigitChar c = true) (hd : isDigitChar d = true) :
    toNumber [a, b, c, d] ≤ 9999 := by
  simp [isDigitChar] at ha hb hc hd
  simp [toNumber]
  omega

lemma jsSplit_datekey (a b c d e f g i : Char) (ha : ¬a = '-') (hb : ¬b = '-') (hc : ¬c = '-')
    (hd : ¬d = '-') (he : ¬e = '-') (hf : ¬f = '-') (hg : ¬g = '-') (hi : ¬i = '-') :
    jsSplit [a, b, '-', c, d, '-', e, f, g, i] = [[a, b], [c, d], [e, f, g, i]] := by
  simp [jsSplit, splitDash, ha, hb, hc, hd, he, hf, hg, hi]

lemma matchesDatePat_inv (cs : List Char) (h : matchesDatePat cs = true) :
    ∃ a b c d e f g i, cs = [a, b, '-', c, d, '-', e, f, g, i] ∧
      isDigitChar a = true ∧ isDigitChar b = true ∧ isDigitChar c = true ∧
      isDigitChar d = true ∧ isDigitChar e = true ∧ isDigitChar f = true ∧
      isDigitChar g = true ∧ isDigitChar i = true := by
  rcases cs with _ | ⟨a, _ | ⟨b, _ | ⟨s1, _ | ⟨c, _ | ⟨d, _ | ⟨s2, _ | ⟨e, _ | ⟨f, _ |
    ⟨g, _ | ⟨i, _ | ⟨x, rest⟩⟩⟩⟩⟩⟩⟩⟩⟩⟩⟩
  all_goals try exact Bool.noConfusion h
  have h' : (isDigitChar a && isDigitChar b && (s1 == '-') && isDigitChar c && isDigitChar d &&
      (s2 == '-') && isDigitChar e && isDigitChar f && isDigitChar g && isDigitChar i) = true := h
  simp only [Bool.and_eq_true, beq_iff_eq] at h'
  obtain ⟨⟨⟨⟨⟨⟨⟨⟨⟨ha, hb⟩, hs1⟩, hc⟩, hd⟩, hs2⟩, he⟩, hf⟩, hg⟩, hi⟩ := h'
  subst hs1
  subst hs2
  exact ⟨a, b, c, d, e, f, g, i, rfl, ha, hb, hc, hd, he, hf, hg, hi⟩

lemma formatDateKey_eq (y m d : Int) (hv : validTriple y m d) (hy1 : 1000 ≤ y) (hy2 : y ≤ 9999) :
    (formatDateKey (daysFromCivil y m d)).data =
      [digitChar (d.toNat / 10), digitChar (d.toNat % 10), '-',
        digitChar (m.toNat / 10), digitChar (m.toNat % 10), '-',
        digitChar (y.toNat / 1000), digitChar (y.toNat / 100 % 10),
        digitChar (y.toNat / 10 % 10), digitChar (y.toNat % 10)] := by
  have hr := civil_roundtrip y m d hv
  obtain ⟨hm1, hm2, hd1, hd2⟩ := hv
  have hd31 : d ≤ 31 := le_trans hd2 (daysInMonth_le y m)
  simp only [formatDateKey, getDate, getMonth, getFullYear, hr]
  rw [show m - 1 + 1 = m by ring]
  rw [intToChars, if_neg (by omega), intToChars, if_neg (by omega), intToChars,
    if_neg (by omega)]
  rw [pad2_eq d.toNat (by omega), pad2_eq m.toNat (by omega),
    natToChars_four y.toNat (by omega) (by omega)]
  simp

lemma digit_ne_dash (c : Char) (h : isDigitChar c = true) : ¬c = '-' := by
  intro he
  rw [he] at h
  exact absurd h (by decide)

lemma roundtrip_key (y m d : Int) (hv : validTriple y m d) (hy1 : 1000 ≤ y) (hy2 : y ≤ 9999) :
    isValidDate (formatDateKey (daysFromCivil y m d)) = true ∧
      parseDateKey (formatDateKey (daysFromCivil y m d)) = daysFromCivil y m d := by
  have hr := civil_roundtrip y m d hv
  obtain ⟨hm1, hm2, hd1, hd2⟩ := hv
  have hd31 : d ≤ 31 := le_trans hd2 (daysInMonth_le y m)
  have hfmt := formatDateKey_eq y m d ⟨hm1, hm2, hd1, hd2⟩ hy1 hy2
  have hday : ((toNumber [digitChar (d.toNat / 10), digitChar (d.toNat % 10)] : Nat) : Int)
      = d := by
    rw [toNumber_two _ _ (by omega) (by omega)]
    omega
  have hmon : ((toNumber [digitChar (m.toNat / 10), digitChar (m.toNat % 10)] : Nat) : Int)
      = m := by
    rw [toNumber_two _ _ (by omega) (by omega)]
    omega
  have hyear : ((toNumber [digitChar (y.toNat / 1000), digitChar (y.toNat / 100 % 10),
      digitChar (y.toNat / 10 % 10), digitChar (y.toNat % 10)] : Nat) : Int) = y := by
    rw [toNumber_four _ _ _ _ (by omega) (by omega) (by omega) (by omega)]
    omega
  have hsplit : jsSplit (formatDateKey (daysFromCivil y m d)).data =
      [[digitChar (d.toNat / 10), digitChar (d.toNat % 10)],
        [digitChar (m.toNat / 10), digitChar (m.toNat % 10)],
        [digitChar (y.toNat / 1000), digitChar (y.toNat / 100 % 10),
          digitChar (y.toNat / 10 % 10), digitChar (y.toNat % 10)]] := by
    rw [hfmt]
    exact jsSplit_datekey _ _ _ _ _ _ _ _ (digitChar_ne_dash _ (by omega))
      (digitChar_ne_dash _ (by omega)) (digitChar_ne_dash _ (by omega))
      (digitChar_ne_dash _ (by omega)) (digitChar_ne_dash _ (by omega))
      (digitChar_ne_dash _ (by omega)) (digitChar_ne_dash _ (by omega))
      (digitChar_ne_dash _ (by omega))
  have hpat : matchesDatePat (formatDateKey (daysFromCivil y m d)).data = true := by
    rw [hfmt]
    have g1 := digitChar_isDigit (d.toNat / 10) (by omega)
    have g2 := digitChar_isDigit (d.toNat % 10) (by omega)
    have g3 := digitChar_isDigit (m.toNat / 10) (by omega)
    have g4 := digitChar_isDigit (m.toNat % 10) (by omega)
    have g5 := digitChar_isDigit (y.toNat / 1000) (by omega)
    have g6 := digitChar_isDigit (y.toNat / 100 % 10) (by omega)
    have g7 := digitChar_isDigit (y.toNat / 10 % 10) (by omega)
    have g8 := digitChar_isDigit (y.toNat % 10) (by omega)
    simp [matchesDatePat, g1, g2, g3, g4, g5, g6, g7, g8]
  have hmk : mkDate y m d = daysFromCivil y m d := mkDate_eq y m d (by omega) hm1 hm2
  constructor
  · simp only [isValidDate, hpat, hsplit, Bool.not_true, Bool.false_eq_true, if_false]
    rw [hday, hmon, hyear, hmk]
    simp [getDate, getMonth, getFullYear, hr]
  · simp only [parseDateKey, hsplit]
    rw [hday, hmon, hyear, hmk]

/-- The (year, month, day) named by a DD-MM-YYYY candidate key. -/
def keyParts (s : String) : Int × Int × Int :=
  match jsSplit s.data with
  | ds :: ms :: ys :: _ => (((toNumber ys : Nat) : Int), ((toNumber ms : Nat) : Int),
      ((toNumber ds : Nat) : Int))
  | _ => (0, 0, 0)

lemma invalid_rejected (s : String) (hpat : matchesDatePat s.data = true)
    (hinv : ¬validTriple (keyParts s).1 (keyParts s).2.1 (keyParts s).2.2) :
    isValidDate s = false := by
  obtain ⟨a, b, c, d, e, f, g, i, hs, ha, hb, hc, hd, he, hf, hg, hi⟩ :=
    matchesDatePat_inv s.data hpat
  have hsplit : jsSplit s.data = [[a, b], [c, d], [e, f, g, i]] := by
    rw [hs]
    exact jsSplit_datekey _ _ _ _ _ _ _ _ (digit_ne_dash _ ha) (digit_ne_dash _ hb)
      (digit_ne_dash _ hc) (digit_ne_dash _ hd) (digit_ne_dash _ he) (digit_ne_dash _ hf)
      (digit_ne_dash _ hg) (digit_ne_dash _ hi)
  have hkp : keyParts s = (((toNumber [e, f, g, i] : Nat) : Int),
      ((toNumber [c, d] : Nat) : Int), ((toNumber [a, b] : Nat) : Int)) := by
    simp only [keyParts, hsplit]
  rw [hkp] at hinv
  by_contra hne
  have htrue : isValidDate s = true := by
    revert hne
    cases isValidDate s <;> simp
  simp only [isValidDate, hpat, hsplit, Bool.not_true, Bool.false_eq_true, if_false] at htrue
  simp only [Bool.and_eq_true, beq_iff_eq] at htrue
  obtain ⟨⟨h1, h2⟩, h3⟩ := htrue
  have hyb : toNumber [e, f, g, i] ≤ 9999 := toNumber_four_le _ _ _ _ he hf hg hi
  have hmb : toNumber [c, d] ≤ 99 := toNumber_two_le _ _ hc hd
  have hdb : toNumber [a, b] ≤ 99 := toNumber_two_le _ _ ha hb
  have hge := mkDate_ge ((toNumber [e, f, g, i] : Nat) : Int) ((toNumber [c, d] : Nat) : Int)
    ((toNumber [a, b] : Nat) : Int) (by omega) (by omega) (by omega) (by omega) (by omega)
    (by omega)
  have hvalid := civilFromDays_valid _ hge
  obtain ⟨v1, v2, v3, v4⟩ := hvalid
  simp only [getDate, getMonth, getFullYear] at h1 h2 h3
  apply hinv
  show validTriple ((toNumber [e, f, g, i] : Nat) : Int) ((toNumber [c, d] : Nat) : Int)
    ((toNumber [a, b] : Nat) : Int)
  have hmeq : (civilFromDays (mkDate ((toNumber [e, f, g, i] : Nat) : Int)
      ((toNumber [c, d] : Nat) : Int) ((toNumber [a, b] : Nat) : Int))).2.1
      = ((toNumber [c, d] : Nat) : Int) := by omega
  rw [hmeq, h3] at v4
  rw [h1] at v4
  exact ⟨by omega, by omega, by omega, v4⟩

/-- **C4** (amended).  For every calendar-valid date whose year has four
digits (1000-9999), formatting it as a zero-padded DD-MM-YYYY key and
validating/parsing it back accepts it and yields the same date; every string
that fails the two-digit/two-digit/four-digit pattern is rejected, and every
string that matches the pattern but names a calendar-invalid date (such as
day 31 of a 30-day month) is rejected. -/
theorem dateKey_codec_roundtrip :
    (∀ y m d : Int, validTriple y m d → 1000 ≤ y → y ≤ 9999 →
        isValidDate (formatDateKey (mkDate y m d)) = true ∧
          parseDateKey (formatDateKey (mkDate y m d)) = mkDate y m d) ∧
      (∀ s : String, matchesDatePat s.data = false → isValidDate s = false) ∧
      (∀ s : String, matchesDatePat s.data = true →
        ¬validTriple (keyParts s).1 (keyParts s).2.1 (keyParts s).2.2 →
          isValidDate s = false) := by
  refine ⟨?_, ?_, ?_⟩
  · intro y m d hv hy1 hy2
    rw [mkDate_eq y m d (by omega) hv.1 hv.2.1]
    exact roundtrip_key y m d hv hy1 hy2
  · intro s h
    simp [isValidDate, h]
  · exact invalid_rejected

/-- Witness for C4 at 2 March 2026 and at the malformed and calendar-invalid
strings of the claim. -/
theorem dateKey_codec_roundtrip_witness :
    (isValidDate (formatDateKey (mkDate 2026 3 2)) = true ∧
        parseDateKey (formatDateKey (mkDate 2026 3 2)) = mkDate 2026 3 2) ∧
      isValidDate "2026-03-02" = false ∧ isValidDate "31-04-2026" = false :=
  ⟨dateKey_codec_roundtrip.1 2026 3 2 (by decide) (by decide) (by decide),
    dateKey_codec_roundtrip.2.1 "2026-03-02" (by decide),
    dateKey_codec_roundtrip.2.2 "31-04-2026" (by decide) (by decide)⟩

/-- C4 as frozen is false: 1 January 999 is a calendar-valid date, but its
formatted key "01-01-999" has a three-digit year, fails the fixed pattern, and
is rejected by `isValidDate`. -/
theorem dateKey_codec_counterexample :
    validTriple 999 1 1 ∧ isValidDate (formatDateKey (mkDate 999 1 1)) = false :=
  ⟨by decide, by decide⟩

/-! ### Data model: jobs, slots, schedule, recurring rules

A team's day slot as stored in `schedule.json`.  `none` in an `Option`-typed
field models an absent (or non-array) JSON value; `assigned_workers` and
`addresses` are both checked with `Array.isArray` in the source. -/

structure Job where
  id : String
  recurring_id : Option String := none
  street : String
  house_number : String
  client_name : Option String := none
  notes : Option String := none
  status : String
  time_interval : Option String := none
  expected_hours : Rat := 0
  maps_url : String
  is_recurring : Option Bool := none
  frequency : Option String := none
deriving DecidableEq

structure Slot where
  assigned_workers : Option (List String)
  addresses : Option (List Job)
deriving DecidableEq

/-- A date's entry: team id → slot (JavaScript object keyed by team id). -/
abbrev Day := String → Option Slot

/-- The schedule: date key → day entry. -/
abbrev Schedule := String → Option Day

/-- A recurring rule as stored in `recurring-jobs.json` (all fields are set by
the `add-recurring-job` action). -/
structure RecurringRule where
  id : String
  client_name : String
  street : String
  house_number : String
  notes : String
  team_id : String
  start_date : String
  frequency : String
  time_interval : String
  expected_hours : Rat
  exceptions : List String
  paused : Bool
  created_at : String
deriving DecidableEq

def emptySlot : Slot := { assigned_workers := some [], addresses := some [] }

/-- `{ Team_A: { assigned_workers: [], addresses: [] }, Team_B: ... }`. -/
def defaultDay : Day := fun t =>
  if t = "Team_A" then some emptySlot else if t = "Team_B" then some emptySlot else none

def updateDay (day : Day) (t : String) (v : Slot) : Day :=
  fun t' => if t' = t then some v else day t'

def updateSchedule (s : Schedule) (k : String) (v : Day) : Schedule :=
  fun k' => if k' = k then some v else s k'

/-! ### Maps URL (lib/utils.js and the projector's inline template) -/

def hexDigitChar (n : Nat) : Char := if n < 10 then digitChar n else Char.ofNat (55 + n)

/-- JavaScript `encodeURIComponent`, modelled for ASCII content: unreserved
characters pass through, everything else is percent-encoded. -/
def encodeURIComponent (s : String) : String :=
  String.mk (s.data.foldr (fun c acc =>
    (if c.isAlpha ∨ c.isDigit ∨ c ∈ ['-', '_', '.', '!', '~', '*', '\'', '(', ')']
      then [c] else ['%', hexDigitChar (c.toNat / 16), hexDigitChar (c.toNat % 16)]) ++ acc) [])

/-- `buildMapsURL` of `lib/utils.js`; the projector's inline template computes
the same string from `rule.house_number + ' ' + rule.street`. -/
def buildMapsURL (street houseNumber : String) : String :=
  "https://www.google.com/maps/search/?api=1&query=" ++
    encodeURIComponent (houseNumber ++ " " ++ street)

/-! ### Recurrence projection engine (`projectRecurringJobs`, get-schedule.js)

The JavaScript loops mutate `schedule` in place; the embedding threads the
schedule through folds over the rule list and the requested date keys. -/

/-- The virtual job synthesized for `rule` on `dateKey` (step 6 of the
projector).  `rule.client_name || ''` etc. are identities here because the
rule fields are strings (and `expected_hours` a number) in the model. -/
def mkProjectedJob (rule : RecurringRule) (dateKey : String) : Job :=
  { id := rule.id ++ "_" ++ dateKey
    recurring_id := some rule.id
    street := rule.street
    house_number := rule.house_number
    client_name := some rule.client_name
    notes := some rule.notes
    status := "pending"
    time_interval := some rule.time_interval
    expected_hours := rule.expected_hours
    maps_url := "https://www.google.com/maps/search/?api=1&query=" ++
      encodeURIComponent (rule.house_number ++ " " ++ rule.street)
    is_recurring := some true
    frequency := some rule.frequency }

/-- One iteration of the projector's inner loop: one rule, one requested date
key.  `startDate`, `dayOfWeek` and `intervalDays` are the per-rule values
computed before the inner loop.  In the DST-free model `diffMs` is an exact
multiple of 86400000, so `Math.round(diffMs / 86400000)` is exact division. -/
def projectOnDate (sched : Schedule) (rule : RecurringRule)
    (startDate dayOfWeek intervalDays : Int) (dateKey : String) : Schedule :=
  let currentDate := parseDateKey dateKey
  if getDay currentDate ≠ dayOfWeek then sched
  else
    let diffMs := getTime currentDate - getTime startDate
    if diffMs < 0 then sched
    else
      let diffDays := diffMs / 86400000
      if diffDays % intervalDays ≠ 0 then sched
      else if dateKey ∈ rule.exceptions then sched
      else
        let teamId := rule.team_id
        let day0 := (sched dateKey).getD defaultDay
        let slot0 := (day0 teamId).getD emptySlot
        let as0 := slot0.addresses.getD []
        if as0.any (fun a => a.recurring_id == some rule.id) then
          updateSchedule sched dateKey (updateDay day0 teamId { slot0 with addresses := some as0 })
        else
          updateSchedule sched dateKey (updateDay day0 teamId
            { slot0 with addresses := some (as0 ++ [mkProjectedJob rule dateKey]) })

/-- The projector's outer-loop body for one non-paused rule. -/
def projectRule (sched : Schedule) (rule : RecurringRule)
    (requestedDateKeys : List String) : Schedule :=
  let startDate := parseDateKey rule.start_date
  let dayOfWeek := getDay startDate
  let intervalDays : Int := if rule.frequency = "fortnightly" then 14 else 7
  requestedDateKeys.foldl
    (fun s dateKey => projectOnDate s rule startDate dayOfWeek intervalDays dateKey) sched

/-- `projectRecurringJobs` of get-schedule.js. -/
def projectRecurringJobs (schedule : Schedule) (recurringJobs : List RecurringRule)
    (requestedDateKeys : List String) : Schedule :=
  if recurringJobs.length = 0 then schedule
  else
    recurringJobs.foldl
      (fun s rule => if rule.paused then s else projectRule s rule requestedDateKeys) schedule

/-! ### Slot-local view of the projection -/

/-- The list of jobs visible at a date/team slot (empty for an absent or
non-array entry, as the projector's own reads treat it). -/
def jobsAt (sched : Schedule) (k t : String) : List Job :=
  match sched k with
  | none => []
  | some day =>
    match day t with
    | none => []
    | some slot => slot.addresses.getD []

/-- The three arithmetic guards of the projector (weekday match, no backward
projection, interval alignment) for `rule` on `dateKey`. -/
def guardsOk (rule : RecurringRule) (dateKey : String) : Bool :=
  let startDate := parseDateKey rule.start_date
  let dayOfWeek := getDay startDate
  let intervalDays : Int := if rule.frequency = "fortnightly" then 14 else 7
  let currentDate := parseDateKey dateKey
  let diffMs := getTime currentDate - getTime startDate
  decide (getDay currentDate = dayOfWeek) && decide (0 ≤ diffMs) &&
    decide (diffMs / 86400000 % intervalDays = 0)

/-- Condition under which a (non-paused) rule emits a job into slot
(`k`, `t`) when the accumulated slot content is `acc`. -/
def ruleEmits (rule : RecurringRule) (k t : String) (keys : List String)
    (acc : List Job) : Prop :=
  k ∈ keys ∧ guardsOk rule k = true ∧ k ∉ rule.exceptions ∧ t = rule.team_id ∧
    acc.any (fun a => a.recurring_id == some rule.id) = false

instance (rule : RecurringRule) (k t : String) (keys : List String) (acc : List Job) :
    Decidable (ruleEmits rule k t keys acc) := by
  unfold ruleEmits; infer_instance

/-- Closed form of the projection's effect on one slot's job list. -/
def emitSlot (asIn : List Job) (rules : List RecurringRule) (k t : String)
    (keys : List String) : List Job :=
  rules.foldl (fun acc rule =>
    if rule.paused = false ∧ ruleEmits rule k t keys acc
    then acc ++ [mkProjectedJob rule k] else acc) asIn

lemma jobsAt_eq_as0 (s : Schedule) (dk t : String) :
    (((s dk).getD defaultDay t).getD emptySlot).addresses.getD [] = jobsAt s dk t := by
  cases hs : s dk with
  | none =>
    simp only [jobsAt, hs, Option.getD]
    unfold defaultDay
    split_ifs <;> simp [emptySlot]
  | some day =>
    cases hd : day t with
    | none => simp [jobsAt, hs, hd, emptySlot]
    | some slot => simp [jobsAt, hs, hd]

lemma jobsAt_day0 (s : Schedule) (dk t : String) :
    (match (s dk).getD defaultDay t with
      | none => []
      | some slot => slot.addresses.getD []) = jobsAt s dk t := by
  cases hs : s dk with
  | none =>
    simp only [hs, Option.getD]
    unfold defaultDay
    split_ifs <;> simp [jobsAt, hs, emptySlot]
  | some day =>
    cases hd : day t with
    | none => simp [jobsAt, hs, hd]
    | some slot => simp [jobsAt, hs, hd]

lemma projectOnDate_shape (s : Schedule) (rule : RecurringRule) (sd dow iv : Int)
    (dk : String) :
    projectOnDate s rule sd dow iv dk = s ∨
      ∃ slot, projectOnDate s rule sd dow iv dk =
        updateSchedule s dk (updateDay ((s dk).getD defaultDay) rule.team_id slot) := by
  simp only [projectOnDate]
  split_ifs <;> first | exact Or.inl rfl | exact Or.inr ⟨_, rfl⟩

lemma projectOnDate_jobsAt_other_key (s : Schedule) (rule : RecurringRule)
    (sd dow iv : Int) (dk k t : String) (h : k ≠ dk) :
    jobsAt (projectOnDate s rule sd dow iv dk) k t = jobsAt s k t := by
  rcases projectOnDate_shape s rule sd dow iv dk with he | ⟨slot, he⟩ <;> rw [he]
  simp [jobsAt, updateSchedule, h]

lemma projectOnDate_jobsAt_other_team (s : Schedule) (rule : RecurringRule)
    (sd dow iv : Int) (dk t : String) (h : t ≠ rule.team_id) :
    jobsAt (projectOnDate s rule sd dow iv dk) dk t = jobsAt s dk t := by
  rcases projectOnDate_shape s rule sd dow iv dk with he | ⟨slot, he⟩ <;> rw [he]
  simp only [jobsAt, updateSchedule, if_pos, updateDay, if_neg h]
  exact jobsAt_day0 s dk t

lemma projectOnDate_jobsAt_self (s : Schedule) (rule : RecurringRule) (dk : String) :
    jobsAt (projectOnDate s rule (parseDateKey rule.start_date)
        (getDay (parseDateKey rule.start_date))
        (if rule.frequency = "fortnightly" then 14 else 7) dk) dk rule.team_id =
      if guardsOk rule dk = true ∧ dk ∉ rule.exceptions ∧
          (jobsAt s dk rule.team_id).any (fun a => a.recurring_id == some rule.id) = false
      then jobsAt s dk rule.team_id ++ [mkProjectedJob rule dk]
      else jobsAt s dk rule.team_id := by
  have hga : guardsOk rule dk =
      (decide (getDay (parseDateKey dk) = getDay (parseDateKey rule.start_date)) &&
        decide (0 ≤ getTime (parseDateKey dk) - getTime (parseDateKey rule.start_date)) &&
        decide ((getTime (parseDateKey dk) - getTime (parseDateKey rule.start_date)) / 86400000 %
          (if rule.frequency = "fortnightly" then 14 else 7) = 0)) := rfl
  simp only [projectOnDate]
  by_cases h1 : getDay (parseDateKey dk) = getDay (parseDateKey rule.start_date)
  · rw [if_neg (not_ne_iff.mpr h1)]
    by_cases h2 : getTime (parseDateKey dk) - getTime (parseDateKey rule.start_date) < 0
    · rw [if_pos h2, if_neg]
      intro hc
      rw [hga] at hc
      simp only [Bool.and_eq_true, decide_eq_true_eq] at hc
      omega
    · rw [if_neg h2]
      by_cases h3 : (getTime (parseDateKey dk) - getTime (parseDateKey rule.start_date)) /
          86400000 % (if rule.frequency = "fortnightly" then 14 else 7) = 0
      · rw [if_neg (not_ne_iff.mpr h3)]
        by_cases h4 : dk ∈ rule.exceptions
        · rw [if_pos h4, if_neg]
          intro hc
          exact hc.2.1 h4
        · rw [if_neg h4]
          by_cases h5 : ((((s dk).getD defaultDay rule.team_id).getD emptySlot).addresses.getD
              []).any (fun a => a.recurring_id == some rule.id) = true
          · have hr : ¬(guardsOk rule dk = true ∧ dk ∉ rule.exceptions ∧
                (jobsAt s dk rule.team_id).any (fun a => a.recurring_id == some rule.id)
                  = false) := by
              rw [jobsAt_eq_as0 s dk rule.team_id] at h5
              intro hc
              rw [hc.2.2] at h5
              exact absurd h5 (by simp)
            rw [if_pos h5, if_neg hr]
            simp [jobsAt, updateSchedule, updateDay, jobsAt_eq_as0 s dk rule.team_id]
          · have hcond : guardsOk rule dk = true ∧ dk ∉ rule.exceptions ∧
                (jobsAt s dk rule.team_id).any (fun a => a.recurring_id == some rule.id)
                  = false := by
              refine ⟨?_, h4, ?_⟩
              · rw [hga]
                simp only [Bool.and_eq_true, decide_eq_true_eq]
                exact ⟨⟨h1, by omega⟩, h3⟩
              · rw [← jobsAt_eq_as0 s dk rule.team_id]
                simp only [Bool.not_eq_true] at h5
                exact h5
            rw [if_neg h5, if_pos hcond]
            simp [jobsAt, updateSchedule, updateDay, jobsAt_eq_as0 s dk rule.team_id]
      · rw [if_pos h3, if_neg]
        intro hc
        rw [hga] at hc
        simp only [Bool.and_eq_true, decide_eq_true_eq] at hc
        exact h3 hc.1.2
  · rw [if_pos h1, if_neg]
    intro hc
    rw [hga] at hc
    simp only [Bool.and_eq_true, decide_eq_true_eq] at hc
    exact h1 hc.1.1.1

lemma projectRule_jobsAt (rule : RecurringRule) (keys : List String) (k t : String) :
    ∀ s : Schedule,
      jobsAt (projectRule s rule keys) k t =
        if ruleEmits rule k t keys (jobsAt s k t)
        then jobsAt s k t ++ [mkProjectedJob rule k] else jobsAt s k t := by
  unfold projectRule
  induction keys with
  | nil =>
    intro s
    have h0 : List.foldl (fun s dateKey => projectOnDate s rule (parseDateKey rule.start_date)
        (getDay (parseDateKey rule.start_date))
        (if rule.frequency = "fortnightly" then 14 else 7) dateKey) s [] = s := rfl
    rw [h0, if_neg]
    intro hc
    exact absurd hc.1 (List.not_mem_nil k)
  | cons dk rest ih =>
    intro s
    simp only [List.foldl_cons]
    rw [ih]
    by_cases hk : k = dk
    · subst hk
      by_cases ht : t = rule.team_id
      · subst ht
        rw [projectOnDate_jobsAt_self s rule k]
        by_cases hg : guardsOk rule k = true ∧ k ∉ rule.exceptions ∧
            (jobsAt s k rule.team_id).any (fun a => a.recurring_id == some rule.id) = false
        · rw [if_pos hg]
          rw [if_neg, if_pos]
          · exact ⟨List.mem_cons_self k rest, hg.1, hg.2.1, rfl, hg.2.2⟩
          · intro hc
            have := hc.2.2.2.2
            simp [mkProjectedJob] at this
        · rw [if_neg hg]
          by_cases he : ruleEmits rule k rule.team_id rest (jobsAt s k rule.team_id)
          · exact absurd ⟨he.2.1, he.2.2.1, he.2.2.2.2⟩ hg
          · rw [if_neg he, if_neg]
            intro hc
            exact hg ⟨hc.2.1, hc.2.2.1, hc.2.2.2.2⟩
      · rw [projectOnDate_jobsAt_other_team s rule _ _ _ _ t ht]
        by_cases he : ruleEmits rule k t rest (jobsAt s k t)
        · exact absurd he.2.2.2.1 ht
        · rw [if_neg he, if_neg]
          intro hc
          exact ht hc.2.2.2.1
    · rw [projectOnDate_jobsAt_other_key s rule _ _ _ dk k t hk]
      by_cases he : ruleEmits rule k t rest (jobsAt s k t)
      · rw [if_pos he, if_pos]
        exact ⟨List.mem_cons_of_mem dk he.1, he.2⟩
      · rw [if_neg he, if_neg]
        intro hc
        rcases hc with ⟨hmem, hrest⟩
        rcases List.mem_cons.mp hmem with h1 | h1
        · exact hk h1
        · exact he ⟨h1, hrest⟩

/-- Closed form: the projection's effect on the job list of any one slot. -/
lemma projection_closed_form (rules : List RecurringRule) (keys : List String)
    (k t : String) : ∀ s : Schedule,
    jobsAt (projectRecurringJobs s rules keys) k t = emitSlot (jobsAt s k t) rules k t keys := by
  have main : ∀ (rs : List RecurringRule) (s : Schedule),
      jobsAt (rs.foldl (fun s rule => if rule.paused then s else projectRule s rule keys) s) k t
        = emitSlot (jobsAt s k t) rs k t keys := by
    intro rs
    induction rs with
    | nil => intro s; rfl
    | cons rule rest ih =>
      intro s
      simp only [List.foldl_cons, emitSlot, List.foldl_cons]
      by_cases hp : rule.paused
      · rw [if_pos hp, if_neg (by simp [hp])]
        exact ih s
      · rw [if_neg hp]
        have := ih (projectRule s rule keys)
        rw [this]
        rw [projectRule_jobsAt rule keys k t s]
        by_cases he : ruleEmits rule k t keys (jobsAt s k t)
        · rw [if_pos he, if_pos ⟨by simp [hp], he⟩]
          rfl
        · rw [if_neg he, if_neg (fun hc => he hc.2)]
          rfl
  intro s
  unfold projectRecurringJobs
  by_cases h0 : rules.length = 0
  · rw [if_pos h0]
    rw [List.length_eq_zero] at h0
    subst h0
    rfl
  · rw [if_neg h0]
    exact main rules s

/-! ### C1: at most one instance per rule per date -/

/-- Number of jobs in a slot's list carrying `recurring_id = r`. -/
def countRule (as : List Job) (r : String) : Nat :=
  (as.filter (fun a => a.recurring_id == some r)).length

lemma countRule_eq_zero_of_any_false (as : List Job) (r : String)
    (h : as.any (fun a => a.recurring_id == some r) = false) : countRule as r = 0 := by
  unfold countRule
  rw [List.length_eq_zero]
  rw [List.filter_eq_nil_iff]
  intro a ha
  simp only [List.any_eq_false] at h
  exact h a ha

lemma countRule_append (as bs : List Job) (r : String) :
    countRule (as ++ bs) r = countRule as r + countRule bs r := by
  simp [countRule, List.filter_append]

lemma countRule_single (rule : RecurringRule) (k : String) (r : String) :
    countRule [mkProjectedJob rule k] r = if rule.id = r then 1 else 0 := by
  by_cases h : rule.id = r
  · simp [countRule, mkProjectedJob, List.filter, h]
  · have hb : (rule.id == r) = false := beq_eq_false_iff_ne.mpr h
    simp [countRule, mkProjectedJob, List.filter, hb, h]

lemma emitSlot_count (k t : String) (keys : List String) (r : String) :
    ∀ (rules : List RecurringRule) (acc : List Job),
      countRule (emitSlot acc rules k t keys) r ≤ max 1 (countRule acc r) := by
  intro rules
  induction rules with
  | nil => intro acc; exact le_max_right _ _
  | cons rule rest ih =>
    intro acc
    show countRule (emitSlot _ rest k t keys) r ≤ _
    by_cases hc : rule.paused = false ∧ ruleEmits rule k t keys acc
    · have hstep : emitSlot acc (rule :: rest) k t keys =
          emitSlot (acc ++ [mkProjectedJob rule k]) rest k t keys := by
        simp only [emitSlot, List.foldl_cons, if_pos hc]
      rw [show emitSlot _ rest k t keys = emitSlot acc (rule :: rest) k t keys from rfl, hstep]
      have h2 := ih (acc ++ [mkProjectedJob rule k])
      have h3 : countRule (acc ++ [mkProjectedJob rule k]) r
          = countRule acc r + countRule [mkProjectedJob rule k] r := countRule_append _ _ _
      have h4 : countRule [mkProjectedJob rule k] r = if rule.id = r then 1 else 0 :=
        countRule_single rule k r
      by_cases hr : rule.id = r
      · have h0 : countRule acc r = 0 := by
          rw [← hr]
          exact countRule_eq_zero_of_any_false _ _ hc.2.2.2.2.2
        rw [if_pos hr] at h4
        omega
      · rw [if_neg hr] at h4
        omega
    · have hstep : emitSlot acc (rule :: rest) k t keys = emitSlot acc rest k t keys := by
        simp only [emitSlot, List.foldl_cons, if_neg hc]
      rw [show emitSlot _ rest k t keys = emitSlot acc (rule :: rest) k t keys from rfl, hstep]
      exact ih acc

/-- **C1.**  For every rule set, schedule snapshot whose slots hold at most one
job per `recurring_id`, and requested date keys, projecting twice (the second
pass over the first pass's output) leaves at most one job with any given
`recurring_id` in every date/team slot. -/
theorem projection_at_most_one_per_rule (sched : Schedule) (rules : List RecurringRule)
    (keys : List String)
    (h : ∀ k t r, countRule (jobsAt sched k t) r ≤ 1) :
    ∀ k t r, countRule (jobsAt
      (projectRecurringJobs (projectRecurringJobs sched rules keys) rules keys) k t) r ≤ 1 := by
  intro k t r
  rw [projection_closed_form, projection_closed_form]
  have h1 := emitSlot_count k t keys r rules (jobsAt sched k t)
  have h2 := emitSlot_count k t keys r rules (emitSlot (jobsAt sched k t) rules k t keys)
  have h3 := h k t r
  omega

/-- Witness for C1: a concrete double projection of a weekly rule over a week
that requests its start date twice still yields a single instance. -/
theorem projection_at_most_one_per_rule_witness :
    countRule (jobsAt (projectRecurringJobs (projectRecurringJobs (fun _ => none)
      [{ id := "r1", client_name := "", street := "Oak Ave", house_number := "5", notes := "",
         team_id := "Team_A", start_date := "02-03-2026", frequency := "weekly",
         time_interval := "", expected_hours := 0, exceptions := [], paused := false,
         created_at := "" }] ["02-03-2026", "02-03-2026"])
      [{ id := "r1", client_name := "", street := "Oak Ave", house_number := "5", notes := "",
         team_id := "Team_A", start_date := "02-03-2026", frequency := "weekly",
         time_interval := "", expected_hours := 0, exceptions := [], paused := false,
         created_at := "" }] ["02-03-2026", "02-03-2026"]) "02-03-2026" "Team_A") "r1" ≤ 1 :=
  projection_at_most_one_per_rule (fun _ => none) _ _
    (fun k t r => by simp [jobsAt, countRule]) "02-03-2026" "Team_A" "r1"

/-! ### C2: the projection guards -/

/-- The spec's occurrence predicate: same weekday as the rule's start date, on
or after it, and a whole number of intervals (7 or 14 days) later. -/
def occursOn (rule : RecurringRule) (dateKey : String) : Prop :=
  getDay (parseDateKey dateKey) = getDay (parseDateKey rule.start_date) ∧
    parseDateKey rule.start_date ≤ parseDateKey dateKey ∧
    (if rule.frequency = "fortnightly" then (14 : Int) else 7) ∣
      (parseDateKey dateKey - parseDateKey rule.start_date)

lemma guardsOk_iff_occursOn (rule : RecurringRule) (dk : String) :
    guardsOk rule dk = true ↔ occursOn rule dk := by
  unfold guardsOk occursOn getTime
  simp only [Bool.and_eq_true, decide_eq_true_eq]
  have hdiv : (parseDateKey dk * 86400000 - parseDateKey rule.start_date * 86400000) / 86400000
      = parseDateKey dk - parseDateKey rule.start_date := by omega
  constructor
  · rintro ⟨⟨hw, hd⟩, hm⟩
    rw [hdiv] at hm
    exact ⟨hw, by omega, Int.dvd_of_emod_eq_zero hm⟩
  · rintro ⟨hw, hle, hdvd⟩
    rw [hdiv]
    exact ⟨⟨hw, by omega⟩, Int.emod_eq_zero_of_dvd hdvd⟩

lemma emitSlot_mem (k t : String) (keys : List String) :
    ∀ (rules : List RecurringRule) (acc : List Job) (j : Job),
      j ∈ emitSlot acc rules k t keys →
      j ∈ acc ∨ ∃ rule ∈ rules, rule.paused = false ∧ k ∈ keys ∧ guardsOk rule k = true ∧
        k ∉ rule.exceptions ∧ t = rule.team_id ∧ j = mkProjectedJob rule k := by
  intro rules
  induction rules with
  | nil => intro acc j hj; exact Or.inl hj
  | cons rule rest ih =>
    intro acc j hj
    by_cases hc : rule.paused = false ∧ ruleEmits rule k t keys acc
    · have hstep : emitSlot acc (rule :: rest) k t keys =
          emitSlot (acc ++ [mkProjectedJob rule k]) rest k t keys := by
        simp only [emitSlot, List.foldl_cons, if_pos hc]
      rw [hstep] at hj
      rcases ih _ j hj with hin | ⟨q, hq, hrest⟩
      · rcases List.mem_append.mp hin with h1 | h1
        · exact Or.inl h1
        · right
          refine ⟨rule, List.mem_cons_self _ _, hc.1, hc.2.1, hc.2.2.1, hc.2.2.2.1,
            hc.2.2.2.2.1, ?_⟩
          simpa using h1
      · exact Or.inr ⟨q, List.mem_cons_of_mem _ hq, hrest⟩
    · have hstep : emitSlot acc (rule :: rest) k t keys = emitSlot acc rest k t keys := by
        simp only [emitSlot, List.foldl_cons, if_neg hc]
      rw [hstep] at hj
      rcases ih _ j hj with hin | ⟨q, hq, hrest⟩
      · exact Or.inl hin
      · exact Or.inr ⟨q, List.mem_cons_of_mem _ hq, hrest⟩

/-- The fortnightly rule of the claim's scenario: starts Monday 2 March 2026. -/
def fortnightlyOakRule : RecurringRule :=
  { id := "rule-1", client_name := "", street := "Oak Ave", house_number := "5", notes := "",
    team_id := "Team_A", start_date := "02-03-2026", frequency := "fortnightly",
    time_interval := "", expected_hours := 0, exceptions := [], paused := false,
    created_at := "" }

/-- **C2.**  A job the projection adds to a slot comes from a non-paused rule,
on a requested date, not in the rule's exceptions, on the rule's team, and the
date satisfies the occurrence predicate (same weekday as the start date, on or
after it, a whole multiple of 7/14 days later); and the fortnightly rule
starting Monday 02-03-2026 projects onto 02-03, 16-03 and 30-03 but not onto
09-03 (7 days later). -/
theorem projection_emits_only_if :
    (∀ (s : Schedule) (rules : List RecurringRule) (keys : List String) (k t : String)
        (j : Job), j ∈ jobsAt (projectRecurringJobs s rules keys) k t → j ∉ jobsAt s k t →
        ∃ rule ∈ rules, rule.paused = false ∧ k ∈ keys ∧ k ∉ rule.exceptions ∧
          t = rule.team_id ∧ j = mkProjectedJob rule k ∧ occursOn rule k) ∧
      (jobsAt (projectRecurringJobs (fun _ => none) [fortnightlyOakRule]
          ["02-03-2026", "09-03-2026", "16-03-2026", "30-03-2026"]) "02-03-2026" "Team_A" =
          [mkProjectedJob fortnightlyOakRule "02-03-2026"] ∧
        jobsAt (projectRecurringJobs (fun _ => none) [fortnightlyOakRule]
          ["02-03-2026", "09-03-2026", "16-03-2026", "30-03-2026"]) "16-03-2026" "Team_A" =
          [mkProjectedJob fortnightlyOakRule "16-03-2026"] ∧
        jobsAt (projectRecurringJobs (fun _ => none) [fortnightlyOakRule]
          ["02-03-2026", "09-03-2026", "16-03-2026", "30-03-2026"]) "30-03-2026" "Team_A" =
          [mkProjectedJob fortnightlyOakRule "30-03-2026"] ∧
        jobsAt (projectRecurringJobs (fun _ => none) [fortnightlyOakRule]
          ["02-03-2026", "09-03-2026", "16-03-2026", "30-03-2026"]) "09-03-2026" "Team_A" =
          []) := by
  constructor
  · intro s rules keys k t j hj hnotin
    rw [projection_closed_form] at hj
    rcases emitSlot_mem k t keys rules (jobsAt s k t) j hj with hin | ⟨rule, hmem, hp, hk, hg, he, ht, hjob⟩
    · exact absurd hin hnotin
    · exact ⟨rule, hmem, hp, hk, he, ht, hjob, (guardsOk_iff_occursOn rule k).mp hg⟩
  · refine ⟨by decide, by decide, by decide, by decide⟩

/-- Witness for C2's conditional part: the instance emitted on 02-03-2026 by
the scenario rule satisfies the occurrence conditions. -/
theorem projection_emits_only_if_witness :
    ∃ rule ∈ [fortnightlyOakRule], rule.paused = false ∧
      "02-03-2026" ∈ ["02-03-2026", "09-03-2026", "16-03-2026", "30-03-2026"] ∧
      "02-03-2026" ∉ rule.exceptions ∧ "Team_A" = rule.team_id ∧
      mkProjectedJob fortnightlyOakRule "02-03-2026" = mkProjectedJob rule "02-03-2026" ∧
      occursOn rule "02-03-2026" :=
  projection_emits_only_if.1 (fun _ => none) [fortnightlyOakRule]
    ["02-03-2026", "09-03-2026", "16-03-2026", "30-03-2026"] "02-03-2026" "Team_A"
    (mkProjectedJob fortnightlyOakRule "02-03-2026")
    (by rw [projection_emits_only_if.2.1]; exact List.mem_singleton.mpr rfl)
    (by simp [jobsAt])

/-! ### C3: exception suppression -/

/-- Adding `dateKey` to the exception list of the rule with id `rid`
(the effect of the `cancel-recurring-instance` action when the date is not
yet listed). -/
def addException (rules : List RecurringRule) (rid dateKey : String) : List RecurringRule :=
  rules.map (fun q => if q.id = rid then { q with exceptions := q.exceptions ++ [dateKey] } else q)

lemma map_id_of {α : Type} (l : List α) (f : α → α) (h : ∀ x ∈ l, f x = x) : l.map f = l := by
  induction l with
  | nil => rfl
  | cons a rest ih =>
    simp only [List.map_cons, h a (List.mem_cons_self a rest)]
    rw [ih (fun x hx => h x (List.mem_cons_of_mem a hx))]

lemma nodup_ids_split (pre : List RecurringRule) (r : RecurringRule) (post : List RecurringRule)
    (h : ((pre ++ r :: post).map RecurringRule.id).Nodup) :
    (∀ q ∈ pre, q.id ≠ r.id) ∧ (∀ q ∈ post, q.id ≠ r.id) := by
  rw [List.map_append, List.nodup_append] at h
  obtain ⟨hpre, hcons, hdisj⟩ := h
  constructor
  · intro q hq heq
    exact hdisj (heq ▸ List.mem_map_of_mem RecurringRule.id hq) (by simp)
  · intro q hq heq
    rw [List.map_cons, List.nodup_cons] at hcons
    exact hcons.1 (heq ▸ List.mem_map_of_mem RecurringRule.id hq)

lemma emitSlot_nil_rules (acc : List Job) (k t : String) (keys : List String) :
    emitSlot acc [] k t keys = acc := rfl

lemma emitSlot_append_rules (acc : List Job) (rs1 rs2 : List RecurringRule) (k t : String)
    (keys : List String) :
    emitSlot acc (rs1 ++ rs2) k t keys = emitSlot (emitSlot acc rs1 k t keys) rs2 k t keys :=
  List.foldl_append _ _ _ _

lemma emitSlot_acc_any (k t : String) (keys : List String) (rid : String) :
    ∀ (rules : List RecurringRule) (acc : List Job), (∀ q ∈ rules, q.id ≠ rid) →
      (emitSlot acc rules k t keys).any (fun a => a.recurring_id == some rid) =
        acc.any (fun a => a.recurring_id == some rid) := by
  intro rules
  induction rules with
  | nil => intro acc _; rfl
  | cons rule rest ih =>
    intro acc hids
    have hrest : ∀ q ∈ rest, q.id ≠ rid := fun q hq => hids q (List.mem_cons_of_mem _ hq)
    by_cases hc : rule.paused = false ∧ ruleEmits rule k t keys acc
    · have hstep : emitSlot acc (rule :: rest) k t keys =
          emitSlot (acc ++ [mkProjectedJob rule k]) rest k t keys := by
        simp only [emitSlot, List.foldl_cons, if_pos hc]
      rw [hstep, ih _ hrest]
      have hne : (some rule.id == some rid) = false := by
        simp [hids rule (List.mem_cons_self _ _)]
      simp [List.any_append, mkProjectedJob, hne]
    · have hstep : emitSlot acc (rule :: rest) k t keys = emitSlot acc rest k t keys := by
        simp only [emitSlot, List.foldl_cons, if_neg hc]
      rw [hstep, ih _ hrest]

lemma emitSlot_insert_inv (k t : String) (keys : List String) (rid : String) (J : Job)
    (hJ : J.recurring_id = some rid) :
    ∀ (qs : List RecurringRule) (pre post : List Job), (∀ q ∈ qs, q.id ≠ rid) →
      ∃ post', emitSlot (pre ++ J :: post) qs k t keys = pre ++ J :: post' ∧
        emitSlot (pre ++ post) qs k t keys = pre ++ post' := by
  intro qs
  induction qs with
  | nil => intro pre post _; exact ⟨post, rfl, rfl⟩
  | cons q rest ih =>
    intro pre post hids
    have hrest : ∀ p ∈ rest, p.id ≠ rid := fun p hp => hids p (List.mem_cons_of_mem _ hp)
    have hqid : (some rid == some q.id) = false := by
      simp
      intro he
      exact hids q (List.mem_cons_self _ _) he.symm
    have hany : (pre ++ J :: post).any (fun a => a.recurring_id == some q.id) =
        (pre ++ post).any (fun a => a.recurring_id == some q.id) := by
      simp [List.any_append, hJ, hqid]
    by_cases hc : q.paused = false ∧ ruleEmits q k t keys (pre ++ post)
    · have hc' : q.paused = false ∧ ruleEmits q k t keys (pre ++ J :: post) := by
        refine ⟨hc.1, hc.2.1, hc.2.2.1, hc.2.2.2.1, hc.2.2.2.2.1, ?_⟩
        rw [hany]
        exact hc.2.2.2.2.2
      have hstep : emitSlot (pre ++ J :: post) (q :: rest) k t keys =
          emitSlot ((pre ++ J :: post) ++ [mkProjectedJob q k]) rest k t keys := by
        simp only [emitSlot, List.foldl_cons, if_pos hc']
      have hstep' : emitSlot (pre ++ post) (q :: rest) k t keys =
          emitSlot ((pre ++ post) ++ [mkProjectedJob q k]) rest k t keys := by
        simp only [emitSlot, List.foldl_cons, if_pos hc]
      rw [hstep, hstep']
      have e1 : (pre ++ J :: post) ++ [mkProjectedJob q k] =
          pre ++ J :: (post ++ [mkProjectedJob q k]) := by simp
      have e2 : (pre ++ post) ++ [mkProjectedJob q k] = pre ++ (post ++ [mkProjectedJob q k]) := by
        simp
      rw [e1, e2]
      exact ih pre (post ++ [mkProjectedJob q k]) hrest
    · have hc' : ¬(q.paused = false ∧ ruleEmits q k t keys (pre ++ J :: post)) := by
        intro hcc
        refine hc ⟨hcc.1, hcc.2.1, hcc.2.2.1, hcc.2.2.2.1, hcc.2.2.2.2.1, ?_⟩
        rw [← hany]
        exact hcc.2.2.2.2.2
      have hstep : emitSlot (pre ++ J :: post) (q :: rest) k t keys =
          emitSlot (pre ++ J :: post) rest k t keys := by
        simp only [emitSlot, List.foldl_cons, if_neg hc']
      have hstep' : emitSlot (pre ++ post) (q :: rest) k t keys =
          emitSlot (pre ++ post) rest k t keys := by
        simp only [emitSlot, List.foldl_cons, if_neg hc]
      rw [hstep, hstep']
      exact ih pre post hrest

lemma emitSlot_singleton (acc : List Job) (rule : RecurringRule) (k t : String)
    (keys : List String) :
    emitSlot acc [rule] k t keys =
      if rule.paused = false ∧ ruleEmits rule k t keys acc
      then acc ++ [mkProjectedJob rule k] else acc := rfl

lemma emitSlot_addExc_single (r : RecurringRule) (k0 k' t' : String) (keys : List String)
    (h : ¬(k' = k0 ∧ t' = r.team_id)) (acc : List Job) :
    emitSlot acc [{ r with exceptions := r.exceptions ++ [k0] }] k' t' keys =
      emitSlot acc [r] k' t' keys := by
  simp only [emitSlot, List.foldl_cons, List.foldl_nil]
  by_cases hk : k' = k0
  · have ht : t' ≠ r.team_id := fun hc => h ⟨hk, hc⟩
    rw [if_neg, if_neg]
    · intro hc
      exact ht hc.2.2.2.2.1
    · intro hc
      exact ht hc.2.2.2.2.1
  · have hcond : (({ r with exceptions := r.exceptions ++ [k0] } : RecurringRule).paused = false ∧
        ruleEmits { r with exceptions := r.exceptions ++ [k0] } k' t' keys acc) ↔
        (r.paused = false ∧ ruleEmits r k' t' keys acc) := by
      unfold ruleEmits
      constructor
      · rintro ⟨hp, h1, h2, h3, h4, h5⟩
        refine ⟨hp, h1, h2, ?_, h4, h5⟩
        intro hmem
        exact h3 (List.mem_append_left _ hmem)
      · rintro ⟨hp, h1, h2, h3, h4, h5⟩
        refine ⟨hp, h1, h2, ?_, h4, h5⟩
        intro hmem
        rcases List.mem_append.mp hmem with hm | hm
        · exact h3 hm
        · exact hk (List.mem_singleton.mp hm)
    rw [if_congr hcond rfl rfl]
    rfl

/-- **C3.**  If a date is in a rule's exceptions the projection emits no
instance of that rule on that date (anything with its `recurring_id` there was
already in the input); and, for an eligible occurrence, adding that date as an
exception and re-projecting removes exactly that one virtual job, leaving
every other slot's job list unchanged. -/
theorem exception_suppression (s : Schedule) (rules : List RecurringRule) (keys : List String)
    (r : RecurringRule) (k : String) (hnd : (rules.map RecurringRule.id).Nodup)
    (hr : r ∈ rules) :
    (k ∈ r.exceptions → ∀ t j, j ∈ jobsAt (projectRecurringJobs s rules keys) k t →
        j.recurring_id = some r.id → j ∈ jobsAt s k t) ∧
      (k ∉ r.exceptions → r.paused = false → guardsOk r k = true → k ∈ keys →
        (jobsAt s k r.team_id).any (fun a => a.recurring_id == some r.id) = false →
        (∀ k' t', ¬(k' = k ∧ t' = r.team_id) →
            jobsAt (projectRecurringJobs s (addException rules r.id k) keys) k' t' =
              jobsAt (projectRecurringJobs s rules keys) k' t') ∧
          ∃ pre post,
            jobsAt (projectRecurringJobs s rules keys) k r.team_id =
              pre ++ mkProjectedJob r k :: post ∧
            jobsAt (projectRecurringJobs s (addException rules r.id k) keys) k r.team_id =
              pre ++ post) := by
  obtain ⟨pre0, post0, hsplit⟩ := List.append_of_mem hr
  subst hsplit
  obtain ⟨hpre, hpost⟩ := nodup_ids_split pre0 r post0 hnd
  constructor
  · intro hexc t j hj hrid
    rw [projection_closed_form] at hj
    rcases emitSlot_mem k t keys _ (jobsAt s k t) j hj with
      hin | ⟨q, hq, hp, hk, hg, hqexc, ht, hjob⟩
    · exact hin
    · exfalso
      have hqid : q.id = r.id := by
        have : j.recurring_id = some q.id := by simp [hjob, mkProjectedJob]
        rw [hrid] at this
        exact (Option.some.injEq _ _ ▸ this).symm
      rcases List.mem_append.mp hq with hq1 | hq1
      · exact hpre q hq1 hqid
      · rcases List.mem_cons.mp hq1 with hq2 | hq2
        · subst hq2
          exact hqexc hexc
        · exact hpost q hq2 hqid
  · intro hexc hp hg hk hclean
    have haddE : addException (pre0 ++ r :: post0) r.id k =
        pre0 ++ { r with exceptions := r.exceptions ++ [k] } :: post0 := by
      unfold addException
      rw [List.map_append, List.map_cons]
      rw [map_id_of pre0 _ (fun q hq => if_neg (hpre q hq)),
        map_id_of post0 _ (fun q hq => if_neg (hpost q hq)), if_pos rfl]
    rw [haddE]
    have hdecomp : pre0 ++ r :: post0 = (pre0 ++ [r]) ++ post0 := by simp
    have hdecomp' : pre0 ++ ({ r with exceptions := r.exceptions ++ [k] } : RecurringRule) ::
        post0 = (pre0 ++ [{ r with exceptions := r.exceptions ++ [k] }]) ++ post0 := by simp
    constructor
    · intro k' t' hne
      rw [projection_closed_form, projection_closed_form, hdecomp, hdecomp',
        emitSlot_append_rules, emitSlot_append_rules, emitSlot_append_rules,
        emitSlot_append_rules, emitSlot_addExc_single r k k' t' keys hne]
    · have hAany : (emitSlot (jobsAt s k r.team_id) pre0 k r.team_id keys).any
          (fun a => a.recurring_id == some r.id) = false := by
        rw [emitSlot_acc_any k r.team_id keys r.id pre0 _ hpre]
        exact hclean
      have hcondr : r.paused = false ∧
          ruleEmits r k r.team_id keys (emitSlot (jobsAt s k r.team_id) pre0 k r.team_id keys) :=
        ⟨hp, hk, hg, hexc, rfl, hAany⟩
      have hstep : emitSlot (emitSlot (jobsAt s k r.team_id) pre0 k r.team_id keys) [r] k
          r.team_id keys =
          emitSlot (jobsAt s k r.team_id) pre0 k r.team_id keys ++ [mkProjectedJob r k] := by
        rw [emitSlot_singleton, if_pos hcondr]
      have hstep' : emitSlot (emitSlot (jobsAt s k r.team_id) pre0 k r.team_id keys)
          [{ r with exceptions := r.exceptions ++ [k] }] k r.team_id keys =
          emitSlot (jobsAt s k r.team_id) pre0 k r.team_id keys := by
        rw [emitSlot_singleton, if_neg]
        intro hc
        exact hc.2.2.2.1 (List.mem_append_right _ (List.mem_singleton.mpr rfl))
      obtain ⟨post', h1, h2⟩ := emitSlot_insert_inv k r.team_id keys r.id (mkProjectedJob r k)
        (by simp [mkProjectedJob]) post0
        (emitSlot (jobsAt s k r.team_id) pre0 k r.team_id keys) [] hpost
      rw [List.append_nil] at h2
      refine ⟨emitSlot (jobsAt s k r.team_id) pre0 k r.team_id keys, post', ?_, ?_⟩
      · rw [projection_closed_form, hdecomp, emitSlot_append_rules, emitSlot_append_rules,
          hstep]
        exact h1
      · rw [projection_closed_form, hdecomp', emitSlot_append_rules, emitSlot_append_rules,
          hstep']
        exact h2

/-- Witness for C3: cancelling the 16-03-2026 occurrence of the scenario rule
removes exactly that virtual job. -/
theorem exception_suppression_witness :
    ∃ pre post,
      jobsAt (projectRecurringJobs (fun _ => none) [fortnightlyOakRule]
          ["02-03-2026", "16-03-2026"]) "16-03-2026" fortnightlyOakRule.team_id =
        pre ++ mkProjectedJob fortnightlyOakRule "16-03-2026" :: post ∧
      jobsAt (projectRecurringJobs (fun _ => none)
          (addException [fortnightlyOakRule] fortnightlyOakRule.id "16-03-2026")
          ["02-03-2026", "16-03-2026"]) "16-03-2026" fortnightlyOakRule.team_id =
        pre ++ post :=
  ((exception_suppression (fun _ => none) [fortnightlyOakRule] ["02-03-2026", "16-03-2026"]
      fortnightlyOakRule "16-03-2026" (by decide) (by decide)).2
    (by decide) rfl (by decide) (by decide) rfl).2

/-! ### C9: the projection never removes or modifies existing data -/

/-- How one slot may change under projection: assigned workers untouched, and
either the slot is literally unchanged or its addresses are the old list (an
absent/non-array value read as `[]`) plus appended jobs satisfying `P`. -/
def slotEvolves (slot slot' : Slot) (P : Job → Prop) : Prop :=
  slot'.assigned_workers = slot.assigned_workers ∧
    (slot' = slot ∨ ∃ new, slot'.addresses = some (slot.addresses.getD [] ++ new) ∧
      ∀ j ∈ new, P j)

/-- Every slot present in `s` is still present in `s'` and has only evolved by
appending `P`-jobs. -/
def schedEvolves (s s' : Schedule) (P : String → Job → Prop) : Prop :=
  ∀ k t day slot, s k = some day → day t = some slot →
    ∃ day' slot', s' k = some day' ∧ day' t = some slot' ∧ slotEvolves slot slot' (P k)

lemma schedEvolves_refl (s : Schedule) (P : String → Job → Prop) : schedEvolves s s P :=
  fun _ _ day slot hk ht => ⟨day, slot, hk, ht, rfl, Or.inl rfl⟩

lemma schedEvolves_trans {s1 s2 s3 : Schedule} {P : String → Job → Prop}
    (h1 : schedEvolves s1 s2 P) (h2 : schedEvolves s2 s3 P) : schedEvolves s1 s3 P := by
  intro k t day slot hk ht
  obtain ⟨day2, slot2, hk2, ht2, haw2, hadr2⟩ := h1 k t day slot hk ht
  obtain ⟨day3, slot3, hk3, ht3, haw3, hadr3⟩ := h2 k t day2 slot2 hk2 ht2
  refine ⟨day3, slot3, hk3, ht3, haw3.trans haw2, ?_⟩
  rcases hadr2 with he | ⟨new1, hn1, hp1⟩
  · subst he
    exact hadr3
  · rcases hadr3 with he | ⟨new2, hn2, hp2⟩
    · subst he
      exact Or.inr ⟨new1, hn1, hp1⟩
    · right
      refine ⟨new1 ++ new2, ?_, ?_⟩
      · rw [hn2, hn1]
        simp
      · intro j hj
        rcases List.mem_append.mp hj with h | h
        · exact hp1 j h
        · exact hp2 j h

lemma schedEvolves_mono {s s' : Schedule} {P Q : String → Job → Prop}
    (h : schedEvolves s s' P) (hpq : ∀ k j, P k j → Q k j) : schedEvolves s s' Q := by
  intro k t day slot hk ht
  obtain ⟨day', slot', hk', ht', haw, hadr⟩ := h k t day slot hk ht
  refine ⟨day', slot', hk', ht', haw, ?_⟩
  rcases hadr with he | ⟨new, hn, hp⟩
  · exact Or.inl he
  · exact Or.inr ⟨new, hn, fun j hj => hpq k j (hp j hj)⟩

lemma projectOnDate_shape2 (s : Schedule) (rule : RecurringRule) (sd dow iv : Int)
    (dk : String) :
    projectOnDate s rule sd dow iv dk = s ∨
      ∃ new : List Job, (∀ j ∈ new, j = mkProjectedJob rule dk) ∧
        projectOnDate s rule sd dow iv dk = updateSchedule s dk
          (updateDay ((s dk).getD defaultDay) rule.team_id
            { ((s dk).getD defaultDay rule.team_id).getD emptySlot with
              addresses := some ((((s dk).getD defaultDay rule.team_id).getD
                emptySlot).addresses.getD [] ++ new) }) := by
  simp only [projectOnDate]
  split_ifs with h1 h2 h3 h4 h5
  · exact Or.inl rfl
  · exact Or.inl rfl
  · exact Or.inl rfl
  · exact Or.inl rfl
  · refine Or.inr ⟨[], by simp, ?_⟩
    rw [List.append_nil]
  · exact Or.inr ⟨[mkProjectedJob rule dk], by simp, rfl⟩

lemma projectOnDate_evolves (s : Schedule) (rule : RecurringRule) (sd dow iv : Int)
    (dk : String) :
    schedEvolves s (projectOnDate s rule sd dow iv dk)
      (fun k j => j = mkProjectedJob rule k) := by
  rcases projectOnDate_shape2 s rule sd dow iv dk with he | ⟨new, hnew, he⟩ <;> rw [he]
  · exact schedEvolves_refl _ _
  · intro k t day slot hk ht
    by_cases hkdk : k = dk
    · subst hkdk
      have hday0 : (s k).getD defaultDay = day := by rw [hk]; rfl
      by_cases htteam : t = rule.team_id
      · have hslot0 : ((s k).getD defaultDay rule.team_id).getD emptySlot = slot := by
          rw [hday0, ← htteam, ht]
          rfl
        refine ⟨updateDay ((s k).getD defaultDay) rule.team_id
            { ((s k).getD defaultDay rule.team_id).getD emptySlot with
              addresses := some ((((s k).getD defaultDay rule.team_id).getD
                emptySlot).addresses.getD [] ++ new) },
          { ((s k).getD defaultDay rule.team_id).getD emptySlot with
            addresses := some ((((s k).getD defaultDay rule.team_id).getD
              emptySlot).addresses.getD [] ++ new) }, ?_, ?_, ?_, ?_⟩
        · simp [updateSchedule]
        · simp only [updateDay]
          rw [if_pos htteam]
        · show (((s k).getD defaultDay rule.team_id).getD emptySlot).assigned_workers
              = slot.assigned_workers
          exact congrArg Slot.assigned_workers hslot0
        · right
          refine ⟨new, ?_, fun j hj => hnew j hj⟩
          show some ((((s k).getD defaultDay rule.team_id).getD emptySlot).addresses.getD []
              ++ new) = some (slot.addresses.getD [] ++ new)
          exact congrArg (fun sl => some (sl.addresses.getD [] ++ new)) hslot0
      · refine ⟨updateDay ((s k).getD defaultDay) rule.team_id
            { ((s k).getD defaultDay rule.team_id).getD emptySlot with
              addresses := some ((((s k).getD defaultDay rule.team_id).getD
                emptySlot).addresses.getD [] ++ new) }, slot, ?_, ?_, rfl, Or.inl rfl⟩
        · simp [updateSchedule]
        · simp only [updateDay]
          rw [if_neg htteam, hday0]
          exact ht
    · refine ⟨day, slot, ?_, ht, rfl, Or.inl rfl⟩
      rw [show updateSchedule s dk (updateDay ((s dk).getD defaultDay) rule.team_id
          { ((s dk).getD defaultDay rule.team_id).getD emptySlot with
            addresses := some ((((s dk).getD defaultDay rule.team_id).getD
              emptySlot).addresses.getD [] ++ new) }) k = s k by simp [updateSchedule, hkdk]]
      exact hk

lemma projectRule_evolves (rule : RecurringRule) (keys : List String) :
    ∀ s : Schedule, schedEvolves s (projectRule s rule keys)
      (fun k j => j = mkProjectedJob rule k) := by
  unfold projectRule
  induction keys with
  | nil => intro s; exact schedEvolves_refl _ _
  | cons dk rest ih =>
    intro s
    simp only [List.foldl_cons]
    exact schedEvolves_trans (projectOnDate_evolves s rule _ _ _ dk) (ih _)

lemma projectLoop_evolves (keys : List String) :
    ∀ (rules : List RecurringRule) (s : Schedule),
      schedEvolves s
        (rules.foldl (fun s rule => if rule.paused then s else projectRule s rule keys) s)
        (fun k j => ∃ rule ∈ rules, rule.paused = false ∧ j = mkProjectedJob rule k) := by
  intro rules
  induction rules with
  | nil => intro s; exact schedEvolves_refl _ _
  | cons rule rest ih =>
    intro s
    simp only [List.foldl_cons]
    by_cases hp : rule.paused
    · rw [if_pos hp]
      exact schedEvolves_mono (ih s)
        (fun k j ⟨q, hq, hrest⟩ => ⟨q, List.mem_cons_of_mem _ hq, hrest⟩)
    · rw [if_neg hp]
      refine schedEvolves_trans (schedEvolves_mono (projectRule_evolves rule keys s) ?_)
        (schedEvolves_mono (ih _) ?_)
      · intro k j hj
        exact ⟨rule, List.mem_cons_self _ _, Bool.not_eq_true _ ▸ hp, hj⟩
      · intro k j ⟨q, hq, hrest⟩
        exact ⟨q, List.mem_cons_of_mem _ hq, hrest⟩

/-- A slot present in the source of a `schedEvolves` step with an addresses
array stays present, keeps its workers, and its addresses grow only by
`P`-jobs. -/
lemma schedEvolves_present {s s' : Schedule} {P : String → Job → Prop}
    (h : schedEvolves s s' P) {k t : String} {day : Day} {slot : Slot} {as : List Job}
    (hk : s k = some day) (ht : day t = some slot) (haddr : slot.addresses = some as) :
    ∃ day' slot' new, s' k = some day' ∧ day' t = some slot' ∧
      slot'.assigned_workers = slot.assigned_workers ∧
      slot'.addresses = some (as ++ new) ∧ ∀ j ∈ new, P k j := by
  obtain ⟨day', slot', hk', ht', haw, hadr⟩ := h k t day slot hk ht
  rcases hadr with he | ⟨new, hn, hp⟩
  · refine ⟨day', slot', [], hk', ht', haw, ?_, fun j hj => absurd hj (List.not_mem_nil j)⟩
    rw [he, List.append_nil]
    exact haddr
  · refine ⟨day', slot', new, hk', ht', haw, ?_, hp⟩
    rw [hn, haddr]
    rfl

lemma emptySlot_of_defaultDay {t : String} {sl : Slot} (h : defaultDay t = some sl) :
    sl = emptySlot := by
  unfold defaultDay at h
  split_ifs at h
  · exact (Option.some_injective _ h).symm
  · exact (Option.some_injective _ h).symm

/-- An absent date or team reads as `emptySlot` through the projector's
`|| default` accesses. -/
lemma slot0_absent (s : Schedule) (k t : String)
    (habs : s k = none ∨ ∃ day, s k = some day ∧ day t = none) :
    ((s k).getD defaultDay t).getD emptySlot = emptySlot := by
  rcases habs with h | ⟨day, hd, hdt⟩
  · rw [h]
    show (defaultDay t).getD emptySlot = emptySlot
    unfold defaultDay
    split_ifs <;> rfl
  · rw [hd]
    show (day t).getD emptySlot = emptySlot
    rw [hdt]
    rfl

lemma updateSchedule_self (s : Schedule) (k : String) (d : Day) :
    updateSchedule s k d k = some d := by
  simp [updateSchedule]

lemma updateDay_self (day : Day) (t : String) (v : Slot) :
    updateDay day t v t = some v := by
  simp [updateDay]

/-- When the three guards pass and the date is not excepted, one projector
iteration materializes the (date, team) slot: the date key and team exist
afterwards, workers are carried over from the (possibly defaulted) slot, the
addresses array is the old one plus only synthesized jobs, and no other date
key changes. -/
lemma projectOnDate_materializes (s : Schedule) (rule : RecurringRule) (dk : String)
    (hg : guardsOk rule dk = true) (hexc : dk ∉ rule.exceptions) :
    ∃ day1 slot1 new, (∀ j ∈ new, j = mkProjectedJob rule dk) ∧
      projectOnDate s rule (parseDateKey rule.start_date)
          (getDay (parseDateKey rule.start_date))
          (if rule.frequency = "fortnightly" then 14 else 7) dk dk = some day1 ∧
      day1 rule.team_id = some slot1 ∧
      slot1.assigned_workers =
        (((s dk).getD defaultDay rule.team_id).getD emptySlot).assigned_workers ∧
      slot1.addresses = some ((((s dk).getD defaultDay rule.team_id).getD
        emptySlot).addresses.getD [] ++ new) ∧
      ∀ k, k ≠ dk →
        projectOnDate s rule (parseDateKey rule.start_date)
          (getDay (parseDateKey rule.start_date))
          (if rule.frequency = "fortnightly" then 14 else 7) dk k = s k := by
  have hga : guardsOk rule dk =
      (decide (getDay (parseDateKey dk) = getDay (parseDateKey rule.start_date)) &&
        decide (0 ≤ getTime (parseDateKey dk) - getTime (parseDateKey rule.start_date)) &&
        decide ((getTime (parseDateKey dk) - getTime (parseDateKey rule.start_date)) / 86400000 %
          (if rule.frequency = "fortnightly" then 14 else 7) = 0)) := rfl
  rw [hga] at hg
  simp only [Bool.and_eq_true, decide_eq_true_eq] at hg
  obtain ⟨⟨h1, h2⟩, h3⟩ := hg
  have h2' : ¬(getTime (parseDateKey dk) - getTime (parseDateKey rule.start_date) < 0) := by
    omega
  simp only [projectOnDate]
  rw [if_neg (not_ne_iff.mpr h1), if_neg h2', if_neg (not_ne_iff.mpr h3), if_neg hexc]
  by_cases h5 : ((((s dk).getD defaultDay rule.team_id).getD emptySlot).addresses.getD
      []).any (fun a => a.recurring_id == some rule.id) = true
  · rw [if_pos h5]
    refine ⟨_, _, [], fun j hj => absurd hj (List.not_mem_nil j),
      updateSchedule_self _ _ _, updateDay_self _ _ _, rfl, ?_, ?_⟩
    · rw [List.append_nil]
    · intro k hk
      simp [updateSchedule, hk]
  · rw [if_neg h5]
    refine ⟨_, _, [mkProjectedJob rule dk], by simp,
      updateSchedule_self _ _ _, updateDay_self _ _ _, rfl, rfl, ?_⟩
    intro k hk
    simp [updateSchedule, hk]

lemma projectRule_cons (s : Schedule) (rule : RecurringRule) (dk : String)
    (rest : List String) :
    projectRule s rule (dk :: rest) =
      projectRule (projectOnDate s rule (parseDateKey rule.start_date)
        (getDay (parseDateKey rule.start_date))
        (if rule.frequency = "fortnightly" then 14 else 7) dk) rule rest := rfl

/-- A full pass of one rule over the requested keys materializes the
(requested, guard-passing, non-excepted) date's team slot. -/
lemma projectRule_materializes (rule : RecurringRule) (keys : List String) (dk : String)
    (hdk : dk ∈ keys) (hg : guardsOk rule dk = true) (hexc : dk ∉ rule.exceptions) :
    ∀ s : Schedule, ∃ day' slot' new,
      projectRule s rule keys dk = some day' ∧ day' rule.team_id = some slot' ∧
        slot'.assigned_workers =
          (((s dk).getD defaultDay rule.team_id).getD emptySlot).assigned_workers ∧
        slot'.addresses = some ((((s dk).getD defaultDay rule.team_id).getD
          emptySlot).addresses.getD [] ++ new) ∧
        ∀ j ∈ new, j = mkProjectedJob rule dk := by
  induction keys with
  | nil => exact absurd hdk (List.not_mem_nil dk)
  | cons dk0 rest ih =>
    intro s
    rw [projectRule_cons]
    by_cases hk0 : dk0 = dk
    · subst hk0
      obtain ⟨day1, slot1, new0, hn0, hpd, ht1, hw1, ha1, hother⟩ :=
        projectOnDate_materializes s rule dk0 hg hexc
      obtain ⟨day', slot', new1, hk', ht', hw', ha', hp1⟩ :=
        schedEvolves_present (projectRule_evolves rule rest
          (projectOnDate s rule (parseDateKey rule.start_date)
            (getDay (parseDateKey rule.start_date))
            (if rule.frequency = "fortnightly" then 14 else 7) dk0)) hpd ht1 ha1
      refine ⟨day', slot', new0 ++ new1, hk', ht', hw'.trans hw1, ?_, ?_⟩
      · rw [ha', List.append_assoc]
      · intro j hj
        rcases List.mem_append.mp hj with h | h
        · exact hn0 j h
        · exact hp1 j h
    · have hdk' : dk ∈ rest := by
        rcases List.mem_cons.mp hdk with h | h
        · exact absurd h.symm hk0
        · exact h
      have hsame : projectOnDate s rule (parseDateKey rule.start_date)
          (getDay (parseDateKey rule.start_date))
          (if rule.frequency = "fortnightly" then 14 else 7) dk0 dk = s dk := by
        rcases projectOnDate_shape s rule (parseDateKey rule.start_date)
          (getDay (parseDateKey rule.start_date))
          (if rule.frequency = "fortnightly" then 14 else 7) dk0 with he | ⟨sl, he⟩ <;>
          rw [he]
        simp [updateSchedule, Ne.symm hk0]
      obtain ⟨day', slot', new, hk', ht', hw', ha', hn⟩ := ih hdk'
        (projectOnDate s rule (parseDateKey rule.start_date)
          (getDay (parseDateKey rule.start_date))
          (if rule.frequency = "fortnightly" then 14 else 7) dk0)
      refine ⟨day', slot', new, hk', ht', ?_, ?_, hn⟩
      · rw [hw', hsame]
      · rw [ha', hsame]

/-- One projector iteration creates a slot at a previously absent (date, team)
only in materialized form: empty workers and only synthesized jobs. -/
lemma projectOnDate_new_slots (s : Schedule) (rule : RecurringRule) (sd dow iv : Int)
    (dk k t : String) (day' : Day) (slot' : Slot)
    (hk' : projectOnDate s rule sd dow iv dk k = some day')
    (ht' : day' t = some slot')
    (habs : s k = none ∨ ∃ day, s k = some day ∧ day t = none) :
    slot'.assigned_workers = some [] ∧
      ∃ as', slot'.addresses = some as' ∧ ∀ j ∈ as', j = mkProjectedJob rule k := by
  rcases projectOnDate_shape2 s rule sd dow iv dk with he | ⟨new, hnew, he⟩
  · rw [he] at hk'
    rcases habs with h | ⟨day, hd, hdt⟩
    · rw [h] at hk'
      exact absurd hk' (by simp)
    · rw [hd] at hk'
      have hdd : day = day' := Option.some_injective _ hk'
      rw [← hdd, hdt] at ht'
      exact absurd ht' (by simp)
  · rw [he] at hk'
    by_cases hkdk : k = dk
    · subst hkdk
      have hday' : updateDay ((s k).getD defaultDay) rule.team_id
          { ((s k).getD defaultDay rule.team_id).getD emptySlot with
            addresses := some ((((s k).getD defaultDay rule.team_id).getD
              emptySlot).addresses.getD [] ++ new) } = day' := by
        rw [updateSchedule_self] at hk'
        exact Option.some_injective _ hk'
      by_cases htt : t = rule.team_id
      · subst htt
        have hbase := slot0_absent s k rule.team_id habs
        rw [← hday', updateDay_self] at ht'
        have hsl : { ((s k).getD defaultDay rule.team_id).getD emptySlot with
            addresses := some ((((s k).getD defaultDay rule.team_id).getD
              emptySlot).addresses.getD [] ++ new) } = slot' :=
          Option.some_injective _ ht'
        rw [hbase] at hsl
        refine ⟨?_, emptySlot.addresses.getD [] ++ new, ?_, ?_⟩
        · rw [← hsl]
          rfl
        · rw [← hsl]
        · intro j hj
          have hj2 : j ∈ new := by simpa [emptySlot] using hj
          exact hnew j hj2
      · rw [← hday'] at ht'
        have ht'' : ((s k).getD defaultDay) t = some slot' := by
          rw [← ht']
          simp [updateDay, htt]
        rcases habs with h | ⟨day, hd, hdt⟩
        · rw [h] at ht''
          have hemp : slot' = emptySlot := emptySlot_of_defaultDay ht''
          refine ⟨by rw [hemp]; rfl, [], by rw [hemp]; rfl, by simp⟩
        · rw [hd] at ht''
          have hcontra : day t = some slot' := ht''
          rw [hdt] at hcontra
          exact absurd hcontra (by simp)
    · have hk'' : s k = some day' := by
        rw [← hk']
        simp [updateSchedule, hkdk]
      rcases habs with h | ⟨day, hd, hdt⟩
      · rw [h] at hk''
        exact absurd hk'' (by simp)
      · rw [hd] at hk''
        have hdd : day = day' := Option.some_injective _ hk''
        rw [← hdd, hdt] at ht'
        exact absurd ht' (by simp)

/-- A full pass of one rule creates slots at previously absent (date, team)
pairs only in materialized form: empty workers and only synthesized jobs. -/
lemma projectRule_new_slots (rule : RecurringRule) (keys : List String) :
    ∀ (s : Schedule) (k t : String) (day' : Day) (slot' : Slot),
      projectRule s rule keys k = some day' → day' t = some slot' →
      (s k = none ∨ ∃ day, s k = some day ∧ day t = none) →
      slot'.assigned_workers = some [] ∧
        ∃ as', slot'.addresses = some as' ∧ ∀ j ∈ as', j = mkProjectedJob rule k := by
  induction keys with
  | nil =>
    intro s k t day' slot' hk' ht' habs
    have h0 : projectRule s rule [] = s := rfl
    rw [h0] at hk'
    rcases habs with h | ⟨day, hd, hdt⟩
    · rw [h] at hk'
      exact absurd hk' (by simp)
    · rw [hd] at hk'
      have hdd : day = day' := Option.some_injective _ hk'
      rw [← hdd, hdt] at ht'
      exact absurd ht' (by simp)
  | cons dk rest ih =>
    intro s k t day' slot' hk' ht' habs
    rw [projectRule_cons] at hk'
    by_cases habs1 : projectOnDate s rule (parseDateKey rule.start_date)
        (getDay (parseDateKey rule.start_date))
        (if rule.frequency = "fortnightly" then 14 else 7) dk k = none ∨
        ∃ day, projectOnDate s rule (parseDateKey rule.start_date)
          (getDay (parseDateKey rule.start_date))
          (if rule.frequency = "fortnightly" then 14 else 7) dk k = some day ∧
          day t = none
    · exact ih _ k t day' slot' hk' ht' habs1
    · push_neg at habs1
      obtain ⟨h1, h2⟩ := habs1
      obtain ⟨day1, hs1k⟩ := Option.ne_none_iff_exists'.mp h1
      obtain ⟨slot1, ht1⟩ := Option.ne_none_iff_exists'.mp (h2 day1 hs1k)
      obtain ⟨hw1, as1, ha1, hj1⟩ :=
        projectOnDate_new_slots s rule (parseDateKey rule.start_date)
          (getDay (parseDateKey rule.start_date))
          (if rule.frequency = "fortnightly" then 14 else 7) dk k t day1 slot1
          hs1k ht1 habs
      obtain ⟨day'2, slot'2, new1, hk2, ht2, hw2, ha2, hp2⟩ :=
        schedEvolves_present (projectRule_evolves rule rest
          (projectOnDate s rule (parseDateKey rule.start_date)
            (getDay (parseDateKey rule.start_date))
            (if rule.frequency = "fortnightly" then 14 else 7) dk)) hs1k ht1 ha1
      rw [hk'] at hk2
      have hdd : day' = day'2 := Option.some_injective _ hk2
      rw [← hdd] at ht2
      rw [ht'] at ht2
      have hss : slot' = slot'2 := Option.some_injective _ ht2
      rw [← hss] at hw2 ha2
      refine ⟨hw2.trans hw1, as1 ++ new1, ha2, ?_⟩
      intro j hj
      rcases List.mem_append.mp hj with h | h
      · exact hj1 j h
      · exact hp2 j h

/-- The projector's outer loop materializes touched slots: existence with an
addresses array unconditionally, and empty-workers-plus-synthesized-only when
the date or team was absent from the input. -/
lemma projectLoop_materializes (keys : List String) (dk : String)
    (rules : List RecurringRule) :
    ∀ rule ∈ rules, rule.paused = false → dk ∈ keys → guardsOk rule dk = true →
      dk ∉ rule.exceptions →
      ∀ s : Schedule, ∃ day' slot' as',
        rules.foldl (fun s q => if q.paused then s else projectRule s q keys) s dk
            = some day' ∧
          day' rule.team_id = some slot' ∧ slot'.addresses = some as' ∧
          ((s dk = none ∨ ∃ day, s dk = some day ∧ day rule.team_id = none) →
            slot'.assigned_workers = some [] ∧
            ∀ j ∈ as', ∃ q ∈ rules, q.paused = false ∧ j = mkProjectedJob q dk) := by
  induction rules with
  | nil =>
    intro rule hmem
    exact absurd hmem (List.not_mem_nil rule)
  | cons q rest ih =>
    intro rule hmem hpause hdk hg hexc s
    simp only [List.foldl_cons]
    rcases List.mem_cons.mp hmem with heq | hmem'
    · subst heq
      rw [if_neg (by simp [hpause])]
      obtain ⟨day1, slot1, new0, hk1, ht1, hw1, ha1, hn0⟩ :=
        projectRule_materializes rule keys dk hdk hg hexc s
      obtain ⟨day', slot', new1, hk', ht', hw', ha', hp1⟩ :=
        schedEvolves_present (projectLoop_evolves keys rest (projectRule s rule keys))
          hk1 ht1 ha1
      refine ⟨day', slot', (((s dk).getD defaultDay rule.team_id).getD
        emptySlot).addresses.getD [] ++ new0 ++ new1, hk', ht', ha', ?_⟩
      intro habs
      have hbase := slot0_absent s dk rule.team_id habs
      constructor
      · rw [hw'.trans hw1, hbase]
        rfl
      · intro j hj
        rw [hbase] at hj
        have hj2 : j ∈ new0 ++ new1 := by simpa [emptySlot] using hj
        rcases List.mem_append.mp hj2 with h | h
        · exact ⟨rule, List.mem_cons_self rule rest, hpause, hn0 j h⟩
        · obtain ⟨q', hq', hj'⟩ := hp1 j h
          exact ⟨q', List.mem_cons_of_mem rule hq', hj'⟩
    · obtain ⟨day', slot', as', hk', ht', ha', hcond⟩ :=
        ih rule hmem' hpause hdk hg hexc (if q.paused then s else projectRule s q keys)
      refine ⟨day', slot', as', hk', ht', ha', ?_⟩
      intro habs
      by_cases habs1 : (if q.paused then s else projectRule s q keys) dk = none ∨
          ∃ day, (if q.paused then s else projectRule s q keys) dk = some day ∧
            day rule.team_id = none
      · obtain ⟨hw, hj⟩ := hcond habs1
        refine ⟨hw, ?_⟩
        intro j hjm
        obtain ⟨q', hq', hj'⟩ := hj j hjm
        exact ⟨q', List.mem_cons_of_mem q hq', hj'⟩
      · by_cases hqp : q.paused = true
        · rw [if_pos hqp] at habs1
          exact absurd habs habs1
        · rw [if_neg hqp] at habs1 hk'
          push_neg at habs1
          obtain ⟨h1, h2⟩ := habs1
          obtain ⟨day1, hs1k⟩ := Option.ne_none_iff_exists'.mp h1
          obtain ⟨slot1, ht1⟩ := Option.ne_none_iff_exists'.mp (h2 day1 hs1k)
          obtain ⟨hw1, as1, ha1, hj1⟩ :=
            projectRule_new_slots q keys s dk rule.team_id day1 slot1 hs1k ht1 habs
          obtain ⟨day'2, slot'2, new1, hk2, ht2, hw2, ha2, hp2⟩ :=
            schedEvolves_present (projectLoop_evolves keys rest (projectRule s q keys))
              hs1k ht1 ha1
          rw [hk'] at hk2
          have hdd : day' = day'2 := Option.some_injective _ hk2
          rw [← hdd] at ht2
          rw [ht'] at ht2
          have hss : slot' = slot'2 := Option.some_injective _ ht2
          rw [← hss] at hw2 ha2
          rw [ha'] at ha2
          have has : as' = as1 ++ new1 := Option.some_injective _ ha2
          constructor
          · rw [hw2]
            exact hw1
          · intro j hjm
            rw [has] at hjm
            rcases List.mem_append.mp hjm with h | h
            · exact ⟨q, List.mem_cons_self q rest, Bool.not_eq_true _ ▸ hqp, hj1 j h⟩
            · obtain ⟨q', hq', hj'⟩ := hp2 j h
              exact ⟨q', List.mem_cons_of_mem q hq', hj'⟩

/-- **C9.**  Projection never removes or modifies pre-existing data: every
(date, team) slot of the input with the current object shape keeps its
`assigned_workers` list and its jobs (in order), and projection only appends
virtual jobs synthesized from non-paused rules; moreover every (date, team)
slot the projector touches (a non-paused rule whose guards pass on a
requested, non-excepted date) exists in the output with an addresses array,
and when that date or team was absent from the input the materialized slot
has empty `assigned_workers` and holds only synthesized virtual jobs. -/
theorem projection_preserves_existing (sched : Schedule) (rules : List RecurringRule)
    (keys : List String) :
    (∀ k t day slot ws as, sched k = some day → day t = some slot →
      slot.assigned_workers = some ws → slot.addresses = some as →
      ∃ day' slot' new, projectRecurringJobs sched rules keys k = some day' ∧
        day' t = some slot' ∧ slot'.assigned_workers = some ws ∧
        slot'.addresses = some (as ++ new) ∧
        ∀ j ∈ new, ∃ rule ∈ rules, rule.paused = false ∧ j = mkProjectedJob rule k) ∧
    (∀ rule ∈ rules, rule.paused = false → ∀ dk ∈ keys, guardsOk rule dk = true →
      dk ∉ rule.exceptions →
      ∃ day' slot' as', projectRecurringJobs sched rules keys dk = some day' ∧
        day' rule.team_id = some slot' ∧ slot'.addresses = some as' ∧
        ((sched dk = none ∨ ∃ day, sched dk = some day ∧ day rule.team_id = none) →
          slot'.assigned_workers = some [] ∧
          ∀ j ∈ as', ∃ q ∈ rules, q.paused = false ∧ j = mkProjectedJob q dk)) := by
  constructor
  · intro k t day slot ws as hk ht haw hadr
    have hev : schedEvolves sched (projectRecurringJobs sched rules keys)
        (fun k j => ∃ rule ∈ rules, rule.paused = false ∧ j = mkProjectedJob rule k) := by
      unfold projectRecurringJobs
      by_cases h0 : rules.length = 0
      · rw [if_pos h0]
        exact schedEvolves_refl _ _
      · rw [if_neg h0]
        exact projectLoop_evolves keys rules sched
    obtain ⟨day', slot', hk', ht', haw', hadr'⟩ := hev k t day slot hk ht
    rcases hadr' with he | ⟨new, hn, hpj⟩
    · refine ⟨day', slot', [], hk', ht', ?_, ?_, fun j hj => absurd hj (List.not_mem_nil j)⟩
      · rw [he]
        exact haw
      · rw [he, List.append_nil]
        exact hadr
    · refine ⟨day', slot', new, hk', ht', haw' ▸ haw, ?_, hpj⟩
      rw [hn, hadr]
      rfl
  · intro rule hrule hpause dk hdk hg hexc
    have hlen : ¬rules.length = 0 := by
      intro h0
      rw [List.length_eq_zero] at h0
      subst h0
      exact absurd hrule (List.not_mem_nil rule)
    unfold projectRecurringJobs
    rw [if_neg hlen]
    exact projectLoop_materializes keys dk rules rule hrule hpause hdk hg hexc sched

/-- The concrete manually-entered job, slot and schedule used by the C9
witness. -/
def mainStreetJob : Job :=
  { id := "j1", street := "Main Street", house_number := "42", status := "pending",
    maps_url := buildMapsURL "Main Street" "42" }

def witnessSlot : Slot :=
  { assigned_workers := some ["Amylea"], addresses := some [mainStreetJob] }

def witnessSchedule : Schedule := fun k =>
  if k = "02-03-2026" then
    some (fun t => if t = "Team_A" then some witnessSlot else none)
  else none

/-- Witness for C9: a concrete persisted slot survives a projection pass with
its workers and manually-entered job intact, and projecting the same rule onto
the absent requested date 16-03-2026 materializes that date's Team_A slot with
empty workers and only synthesized jobs. -/
theorem projection_preserves_existing_witness :
    (∃ day' slot' new,
      projectRecurringJobs witnessSchedule [fortnightlyOakRule]
          ["02-03-2026", "16-03-2026"] "02-03-2026" = some day' ∧
        day' "Team_A" = some slot' ∧ slot'.assigned_workers = some ["Amylea"] ∧
        slot'.addresses = some ([mainStreetJob] ++ new) ∧
        ∀ j ∈ new, ∃ rule ∈ [fortnightlyOakRule], rule.paused = false ∧
          j = mkProjectedJob rule "02-03-2026") ∧
    (∃ day' slot' as',
      projectRecurringJobs witnessSchedule [fortnightlyOakRule]
          ["02-03-2026", "16-03-2026"] "16-03-2026" = some day' ∧
        day' "Team_A" = some slot' ∧ slot'.addresses = some as' ∧
        slot'.assigned_workers = some [] ∧
        ∀ j ∈ as', ∃ q ∈ [fortnightlyOakRule], q.paused = false ∧
          j = mkProjectedJob q "16-03-2026") := by
  constructor
  · exact (projection_preserves_existing witnessSchedule [fortnightlyOakRule]
      ["02-03-2026", "16-03-2026"]).1 "02-03-2026" "Team_A" _ witnessSlot ["Amylea"]
      [mainStreetJob] rfl rfl rfl rfl
  · obtain ⟨day', slot', as', hk', ht', ha', hcond⟩ :=
      (projection_preserves_existing witnessSchedule [fortnightlyOakRule]
        ["02-03-2026", "16-03-2026"]).2 fortnightlyOakRule (List.mem_cons_self _ _) rfl
        "16-03-2026" (by decide) (by decide) (by decide)
    obtain ⟨hw, hj⟩ := hcond (Or.inl rfl)
    exact ⟨day', slot', as', hk', ht', ha', hw, hj⟩

/-! ### The mutation handler (`update-schedule.js`)

The handler is modelled at the point where the request body has been parsed
from JSON (method and JSON-parse failures are upstream of every claim).  The
three persisted resources live in a `Store`; each `writeJSON` call is recorded
in `writes`.  `generateUUID` (Math.random) and `new Date().toISOString()` are
environment inputs, passed in as `Env`. -/

structure Client where
  id : String
  name : String
  street : String
  house_number : String
  notes : String
  expected_hours : Rat
  default_frequency : String
  default_time_interval : String
deriving DecidableEq

structure Store where
  schedule : Schedule
  clients : List Client
  recurringJobs : List RecurringRule

/-- The `address` object of an add-job request. -/
structure Address where
  street : Option String := none
  house_number : Option String := none
  status : Option String := none
  client_name : Option String := none
  notes : Option String := none
deriving DecidableEq

/-- A parsed request body; `none` is an absent field. -/
structure Body where
  action : Option String := none
  date : Option String := none
  team_id : Option String := none
  job_id : Option String := none
  assigned_workers : Option (List String) := none
  dates : Option (List String) := none
  address : Option Address := none
  selected_workers : Option (List String) := none
  time_interval : Option String := none
  expected_hours : Option Rat := none
  client_id : Option String := none
  name : Option String := none
  street : Option String := none
  house_number : Option String := none
  notes : Option String := none
  client_name : Option String := none
  start_date : Option String := none
  frequency : Option String := none
  rule_id : Option String := none
  paused : Option Bool := none
  default_frequency : Option String := none
  default_time_interval : Option String := none
deriving DecidableEq

structure Response where
  status : Nat
  error : Option String := none
  message : Option String := none
  job : Option Job := none
deriving DecidableEq

structure HandlerResult where
  resp : Response
  store : Store
  writes : List String

structure Env where
  freshId : String
  nowIso : String

/-- Worker roster from `lib/utils.js`. -/
def WORKER_ROSTER : List String :=
  ["Amylea", "Angelo", "Chloe", "George", "Leeroy", "Myka", "Nathan", "Olivia", "Tracy"]

def VALID_STATUSES : List String := ["pending", "completed", "cancelled"]

/-- JavaScript truthiness of a possibly-absent string field. -/
def truthyS : Option String → Bool
  | none => false
  | some s => !(s == "")

def isValidTeam (teamId : Option String) : Bool :=
  teamId == some "Team_A" || teamId == some "Team_B"

/-- `validateWorkers`: returns the error message for the first worker not in
the roster, `none` when all are valid. -/
def validateWorkers (workers : List String) : Option String :=
  match workers.find? (fun w => !(WORKER_ROSTER.contains w)) with
  | some w => some ("Invalid worker name: " ++ w ++ ". Must be one of: " ++
      String.intercalate ", " WORKER_ROSTER)
  | none => none

/-- `validateAddress`: first failing check's message, `none` when valid. -/
def validateAddress (address : Option Address) : Option String :=
  match address with
  | none => some "Address must be an object"
  | some a =>
    if !truthyS a.street then some "Address must have a valid \"street\" field (string)"
    else if !truthyS a.house_number then
      some "Address must have a valid \"house_number\" field (string)"
    else
      match a.status with
      | some st =>
        if st ≠ "" ∧ st ∉ VALID_STATUSES then
          some ("Invalid status \"" ++ st ++ "\". Must be one of: " ++
            String.intercalate ", " VALID_STATUSES)
        else none
      | none => none

/-- Replace the first element satisfying `p` (the JavaScript pattern of
`find` followed by in-place mutation). -/
def setFirstBy {α : Type} (p : α → Bool) (f : α → α) : List α → List α
  | [] => []
  | a :: rest => if p a then f a :: rest else a :: setFirstBy p f rest

/-- Remove the first element satisfying `p`, returning it and the rest
(`findIndex` + `splice(idx, 1)`). -/
def removeFirstBy {α : Type} (p : α → Bool) : List α → Option (α × List α)
  | [] => none
  | a :: rest =>
    if p a then some (a, rest)
    else (removeFirstBy p rest).map (fun x => (x.1, a :: x.2))

def errorResult (store : Store) (status : Nat) (msg : String) : HandlerResult :=
  ⟨{ status := status, error := some msg }, store, []⟩

/-- `update-workers` action. -/
def updateWorkersAction (store : Store) (body : Body) : HandlerResult :=
  if !isValidDateField body.date then
    errorResult store 400 "Invalid or missing \"date\" field. Must be in DD-MM-YYYY format."
  else if !isValidTeam body.team_id then
    errorResult store 400 "Invalid or missing \"team_id\" field. Must be \"Team_A\" or \"Team_B\"."
  else
    match body.assigned_workers with
    | none => errorResult store 400 "\"assigned_workers\" must be an array of worker names."
    | some ws =>
      match validateWorkers ws with
      | some msg => errorResult store 400 msg
      | none =>
        let date := body.date.getD ""
        let team := body.team_id.getD ""
        let day0 := (store.schedule date).getD defaultDay
        let slot0 := (day0 team).getD emptySlot
        let sched' := updateSchedule store.schedule date
          (updateDay day0 team { slot0 with assigned_workers := some ws })
        ⟨{ status := 200, message := some "Workers updated successfully" },
          { store with schedule := sched' }, ["data/schedule.json"]⟩

/-- The two per-team clearing statements of `clear-schedule-assignments`. -/
def clearDay (day : Day) : Day := fun t =>
  if t = "Team_A" ∨ t = "Team_B" then
    (day t).map (fun sl => { sl with assigned_workers := some [] })
  else day t

/-- The date loop of `clear-schedule-assignments`. -/
def clearDates (sched : Schedule) (ds : List String) : Schedule :=
  ds.foldl (fun s d =>
    match s d with
    | none => s
    | some day => updateSchedule s d (clearDay day)) sched

/-- `clear-schedule-assignments` action. -/
def clearAssignmentsAction (store : Store) (body : Body) : HandlerResult :=
  match body.dates with
  | none => errorResult store 400 "\"dates\" must be a non-empty array of DD-MM-YYYY strings."
  | some ds =>
    if ds.length = 0 then
      errorResult store 400 "\"dates\" must be a non-empty array of DD-MM-YYYY strings."
    else
      let modified := ds.any (fun d => (store.schedule d).isSome)
      ⟨{ status := 200, message := some "Assignments cleared successfully" },
        { store with schedule := clearDates store.schedule ds },
        if modified then ["data/schedule.json"] else []⟩

/-- `delete-job` action. -/
def deleteJobAction (store : Store) (body : Body) : HandlerResult :=
  if !isValidDateField body.date || !isValidTeam body.team_id || !truthyS body.job_id then
    errorResult store 400 "Invalid parameters for delete-job"
  else
    let date := body.date.getD ""
    let team := body.team_id.getD ""
    let jid := body.job_id.getD ""
    match store.schedule date with
    | none => errorResult store 404 "Schedule or job not found"
    | some day =>
      match day team with
      | none => errorResult store 404 "Schedule or job not found"
      | some slot =>
        match slot.addresses with
        | none => errorResult store 404 "Schedule or job not found"
        | some addresses =>
          match removeFirstBy (fun a => a.id == jid) addresses with
          | none => errorResult store 404 "Job not found"
          | some (removed, rest) =>
            let sched' := updateSchedule store.schedule date
              (updateDay day team { slot with addresses := some rest })
            ⟨{ status := 200, message := some "Job deleted successfully", job := some removed },
              { store with schedule := sched' }, ["data/schedule.json"]⟩

/-- `cancel-job` action: already-cancelled jobs are returned unchanged with
no write (the designed idempotence). -/
def cancelJobAction (store : Store) (body : Body) : HandlerResult :=
  if !isValidDateField body.date then
    errorResult store 400 "Invalid or missing \"date\" field."
  else if !isValidTeam body.team_id then
    errorResult store 400 "Invalid or missing \"team_id\" field."
  else if !truthyS body.job_id then
    errorResult store 400 "Missing or invalid \"job_id\" field."
  else
    let date := body.date.getD ""
    let team := body.team_id.getD ""
    let jid := body.job_id.getD ""
    match store.schedule date with
    | none => errorResult store 404 ("No schedule entry found for " ++ date ++ " / " ++ team)
    | some day =>
      match day team with
      | none => errorResult store 404 ("No schedule entry found for " ++ date ++ " / " ++ team)
      | some slot =>
        match slot.addresses with
        | none => errorResult store 404 "No addresses array found for this team/date"
        | some addresses =>
          match addresses.find? (fun a => a.id == jid) with
          | none => errorResult store 404 ("Job with id \"" ++ jid ++ "\" not found")
          | some job =>
            if job.status ≠ "cancelled" then
              let addresses' := setFirstBy (fun a => a.id == jid)
                (fun a => { a with status := "cancelled" }) addresses
              let sched' := updateSchedule store.schedule date
                (updateDay day team { slot with addresses := some addresses' })
              ⟨{ status := 200, message := some "Job cancelled successfully",
                  job := some { job with status := "cancelled" } },
                { store with schedule := sched' }, ["data/schedule.json"]⟩
            else
              ⟨{ status := 200, message := some "Job cancelled successfully", job := some job },
                store, []⟩

/-- `add-client` action. -/
def addClientAction (env : Env) (store : Store) (body : Body) : HandlerResult :=
  if !truthyS (body.name.map String.trim) || body.name = none then
    errorResult store 400 "Client \"name\" is required."
  else if !truthyS (body.street.map String.trim) || body.street = none then
    errorResult store 400 "Client \"street\" is required."
  else if !truthyS (body.house_number.map String.trim) || body.house_number = none then
    errorResult store 400 "Client \"house_number\" is required."
  else
    let newClient : Client :=
      { id := env.freshId
        name := (body.name.getD "").trim
        street := (body.street.getD "").trim
        house_number := (body.house_number.getD "").trim
        notes := (body.notes.getD "").trim
        expected_hours := body.expected_hours.getD 0
        default_frequency :=
          match body.default_frequency with
          | some f => if f ∈ ["none", "weekly", "fortnightly"] then f else "none"
          | none => "none"
        default_time_interval := (body.default_time_interval.getD "").trim }
    ⟨{ status := 201, message := some "Client added successfully" },
      { store with clients := store.clients ++ [newClient] }, ["data/clients.json"]⟩

/-- `delete-client` action. -/
def deleteClientAction (store : Store) (body : Body) : HandlerResult :=
  if !truthyS body.client_id then
    errorResult store 400 "Missing or invalid \"client_id\"."
  else
    let cid := body.client_id.getD ""
    match removeFirstBy (fun c => c.id == cid) store.clients with
    | none => errorResult store 404 ("Client \"" ++ cid ++ "\" not found.")
    | some (_, rest) =>
      ⟨{ status := 200, message := some "Client deleted successfully" },
        { store with clients := rest }, ["data/clients.json"]⟩

/-- The field-by-field patch of `edit-client`. -/
def patchClient (body : Body) (c : Client) : Client :=
  let c := if truthyS body.name then { c with name := (body.name.getD "").trim } else c
  let c := if truthyS body.street then { c with street := (body.street.getD "").trim } else c
  let c := if truthyS body.house_number then
      { c with house_number := (body.house_number.getD "").trim } else c
  let c := match body.notes with
    | some n => { c with notes := n.trim }
    | none => c
  let c := match body.expected_hours with
    | some q => { c with expected_hours := q }
    | none => c
  let c := match body.default_frequency with
    | some f => { c with default_frequency :=
        if f ∈ ["none", "weekly", "fortnightly"] then f else "none" }
    | none => c
  match body.default_time_interval with
  | some s => { c with default_time_interval := s.trim }
  | none => c

/-- `edit-client` action. -/
def editClientAction (store : Store) (body : Body) : HandlerResult :=
  if !truthyS body.client_id then
    errorResult store 400 "Missing or invalid \"client_id\"."
  else
    let cid := body.client_id.getD ""
    match store.clients.find? (fun c => c.id == cid) with
    | none => errorResult store 404 ("Client \"" ++ cid ++ "\" not found.")
    | some _ =>
      let clients' := setFirstBy (fun c => c.id == cid) (patchClient body) store.clients
      ⟨{ status := 200, message := some "Client updated successfully" },
        { store with clients := clients' }, ["data/clients.json"]⟩

/-- `add-recurring-job` action: an invalid frequency is rejected with a 400
naming the field. -/
def addRecurringJobAction (env : Env) (store : Store) (body : Body) : HandlerResult :=
  if !truthyS body.street || !truthyS body.house_number || !truthyS body.team_id ||
      !truthyS body.start_date || !truthyS body.frequency then
    errorResult store 400 "street, house_number, team_id, start_date, and frequency are required."
  else if !isValidDateField body.start_date then
    errorResult store 400 "Invalid start_date. Must be DD-MM-YYYY."
  else if !isValidTeam body.team_id then
    errorResult store 400 "Invalid team_id."
  else if !((body.frequency.getD "") ∈ ["weekly", "fortnightly"]) then
    errorResult store 400 "frequency must be \"weekly\" or \"fortnightly\"."
  else
    let newRule : RecurringRule :=
      { id := env.freshId
        client_name := (body.client_name.getD "").trim
        street := (body.street.getD "").trim
        house_number := (body.house_number.getD "").trim
        notes := (body.notes.getD "").trim
        team_id := body.team_id.getD ""
        start_date := body.start_date.getD ""
        frequency := body.frequency.getD ""
        time_interval := (body.time_interval.getD "").trim
        expected_hours := body.expected_hours.getD 0
        exceptions := []
        paused := false
        created_at := env.nowIso }
    ⟨{ status := 201, message := some "Recurring job created" },
      { store with recurringJobs := store.recurringJobs ++ [newRule] },
      ["data/recurring-jobs.json"]⟩

/-- The field-by-field patch of `edit-recurring-job`: note that an invalid
`frequency` (or `team_id`) value is silently ignored, not reported. -/
def patchRule (body : Body) (r : RecurringRule) : RecurringRule :=
  let r := match body.client_name with
    | some n => { r with client_name := n.trim }
    | none => r
  let r := match body.street with
    | some n => { r with street := n.trim }
    | none => r
  let r := match body.house_number with
    | some n => { r with house_number := n.trim }
    | none => r
  let r := match body.notes with
    | some n => { r with notes := n.trim }
    | none => r
  let r := if body.team_id ≠ none ∧ isValidTeam body.team_id then
      { r with team_id := body.team_id.getD "" } else r
  let r := if body.frequency ≠ none ∧ (body.frequency.getD "") ∈ ["weekly", "fortnightly"] then
      { r with frequency := body.frequency.getD "" } else r
  let r := match body.time_interval with
    | some s => { r with time_interval := s.trim }
    | none => r
  let r := match body.expected_hours with
    | some q => { r with expected_hours := q }
    | none => r
  match body.paused with
  | some b => { r with paused := b }
  | none => r

/-- `edit-recurring-job` action. -/
def editRecurringJobAction (store : Store) (body : Body) : HandlerResult :=
  if !truthyS body.rule_id then
    errorResult store 400 "rule_id is required."
  else
    let rid := body.rule_id.getD ""
    match store.recurringJobs.find? (fun r => r.id == rid) with
    | none => errorResult store 404 ("Recurring job \"" ++ rid ++ "\" not found.")
    | some _ =>
      let rules' := setFirstBy (fun r => r.id == rid) (patchRule body) store.recurringJobs
      ⟨{ status := 200, message := some "Recurring job updated" },
        { store with recurringJobs := rules' }, ["data/recurring-jobs.json"]⟩

/-- `delete-recurring-job` action. -/
def deleteRecurringJobAction (store : Store) (body : Body) : HandlerResult :=
  if !truthyS body.rule_id then
    errorResult store 400 "rule_id is required."
  else
    let rid := body.rule_id.getD ""
    match removeFirstBy (fun r => r.id == rid) store.recurringJobs with
    | none => errorResult store 404 ("Recurring job \"" ++ rid ++ "\" not found.")
    | some (_, rest) =>
      ⟨{ status := 200, message := some "Recurring job deleted" },
        { store with recurringJobs := rest }, ["data/recurring-jobs.json"]⟩

/-- `cancel-recurring-instance` action. -/
def cancelRecurringInstanceAction (store : Store) (body : Body) : HandlerResult :=
  if !truthyS body.rule_id || !isValidDateField body.date then
    errorResult store 400 "rule_id and valid date are required."
  else
    let rid := body.rule_id.getD ""
    let date := body.date.getD ""
    match store.recurringJobs.find? (fun r => r.id == rid) with
    | none => errorResult store 404 ("Recurring job \"" ++ rid ++ "\" not found.")
    | some _ =>
      let rules' := setFirstBy (fun r => r.id == rid)
        (fun r => if date ∈ r.exceptions then r
          else { r with exceptions := r.exceptions ++ [date] }) store.recurringJobs
      ⟨{ status := 200, message := some ("Recurring instance cancelled for " ++ date) },
        { store with recurringJobs := rules' }, ["data/recurring-jobs.json"]⟩

/-- The write phase of `add-job` (after all validation), with `ws` the
selected workers (empty when the field was absent). -/
def addJobCore (env : Env) (store : Store) (body : Body) (ws : List String) : HandlerResult :=
  let date := body.date.getD ""
  let team := body.team_id.getD ""
  let a := body.address.getD {}
  let day0 := (store.schedule date).getD defaultDay
  let slot0 := (day0 team).getD emptySlot
  let slot1 : Slot := { assigned_workers := some (slot0.assigned_workers.getD []),
                        addresses := some (slot0.addresses.getD []) }
  let job : Job :=
    { id := env.freshId
      street := a.street.getD ""
      house_number := a.house_number.getD ""
      status := match a.status with
        | some st => if st = "" then "pending" else st
        | none => "pending"
      maps_url := buildMapsURL (a.street.getD "") (a.house_number.getD "")
      expected_hours := body.expected_hours.getD 0
      client_name := if truthyS a.client_name then a.client_name else none
      notes := if truthyS a.notes then a.notes else none
      time_interval := if truthyS body.time_interval then body.time_interval else none }
  let slot2 := { slot1 with addresses := some (slot1.addresses.getD [] ++ [job]) }
  let slot3 := if ws.length > 0 then { slot2 with assigned_workers := some ws } else slot2
  ⟨{ status := 201, message := some "Job added successfully", job := some job },
    { store with schedule := updateSchedule store.schedule date (updateDay day0 team slot3) },
    ["data/schedule.json"]⟩

/-- The default `add-job` action. -/
def addJobAction (env : Env) (store : Store) (body : Body) : HandlerResult :=
  if !isValidDateField body.date then
    errorResult store 400 "Invalid or missing \"date\" field. Must be in DD-MM-YYYY format."
  else if !isValidTeam body.team_id then
    errorResult store 400 "Invalid or missing \"team_id\" field. Must be \"Team_A\" or \"Team_B\"."
  else
    match validateAddress body.address with
    | some msg => errorResult store 400 msg
    | none =>
      match body.selected_workers with
      | some ws =>
        match validateWorkers ws with
        | some msg => errorResult store 400 msg
        | none => addJobCore env store body ws
      | none => addJobCore env store body []

/-- The handler's action dispatch (`body.action || 'add-job'` followed by the
if-chain; an unrecognized action falls through to `add-job`). -/
def handleAction (env : Env) (store : Store) (body : Body) : HandlerResult :=
  let action := match body.action with
    | some a => if a = "" then "add-job" else a
    | none => "add-job"
  if action = "update-workers" then updateWorkersAction store body
  else if action = "clear-schedule-assignments" then clearAssignmentsAction store body
  else if action = "delete-job" then deleteJobAction store body
  else if action = "cancel-job" then cancelJobAction store body
  else if action = "add-client" then addClientAction env store body
  else if action = "delete-client" then deleteClientAction store body
  else if action = "edit-client" then editClientAction store body
  else if action = "add-recurring-job" then addRecurringJobAction env store body
  else if action = "edit-recurring-job" then editRecurringJobAction store body
  else if action = "delete-recurring-job" then deleteRecurringJobAction store body
  else if action = "cancel-recurring-instance" then cancelRecurringInstanceAction store body
  else addJobAction env store body

/-! ### C8: clear-schedule-assignments -/

lemma clearDay_idem (day : Day) : clearDay (clearDay day) = clearDay day := by
  funext t
  unfold clearDay
  by_cases h : t = "Team_A" ∨ t = "Team_B"
  · rw [if_pos h, if_pos h]
    cases day t <;> rfl
  · rw [if_neg h, if_neg h]

lemma clearDates_spec : ∀ (ds : List String) (sched : Schedule) (k : String),
    clearDates sched ds k = if k ∈ ds then (sched k).map clearDay else sched k := by
  intro ds
  induction ds with
  | nil =>
    intro sched k
    simp [clearDates]
  | cons d rest ih =>
    intro sched k
    have hstep : clearDates sched (d :: rest) = clearDates
        (match sched d with
          | none => sched
          | some day => updateSchedule sched d (clearDay day)) rest := rfl
    rw [hstep, ih]
    cases hd : sched d with
    | none =>
      by_cases hk : k = d
      · subst hk
        by_cases hr : k ∈ rest
        · simp [hr, hd, List.mem_cons]
        · simp [hr, hd, List.mem_cons]
      · simp [List.mem_cons, hk]
    | some day =>
      by_cases hk : k = d
      · subst hk
        by_cases hr : k ∈ rest
        · simp [hr, hd, List.mem_cons, updateSchedule, clearDay_idem]
        · simp [hr, hd, List.mem_cons, updateSchedule]
      · simp [List.mem_cons, hk, updateSchedule]

/-- **C8.**  `clear-schedule-assignments` clears `assigned_workers` on both
teams for every listed date present in the schedule, silently skips absent
dates (neither creating them nor erroring), touches nothing else, and issues
at most one write (none when no listed date exists). -/
theorem clear_assignments_spec (env : Env) (store : Store) (body : Body) (ds : List String)
    (ha : body.action = some "clear-schedule-assignments") (hds : body.dates = some ds)
    (hne : ds ≠ []) :
    (handleAction env store body).resp.status = 200 ∧
      (∀ k, (handleAction env store body).store.schedule k =
        if k ∈ ds then (store.schedule k).map clearDay else store.schedule k) ∧
      (handleAction env store body).store.clients = store.clients ∧
      (handleAction env store body).store.recurringJobs = store.recurringJobs ∧
      (handleAction env store body).writes =
        (if ds.any (fun d => (store.schedule d).isSome) then ["data/schedule.json"] else []) := by
  have hdisp : handleAction env store body = clearAssignmentsAction store body := by
    simp [handleAction, ha]
  rw [hdisp]
  unfold clearAssignmentsAction
  rw [hds]
  simp only []
  rw [if_neg (by simpa using hne)]
  refine ⟨rfl, ?_, rfl, rfl, rfl⟩
  intro k
  exact clearDates_spec ds store.schedule k

/-- Witness for C8: clearing `17-02-2026` and `18-02-2026` where only the
first exists clears that day's teams and leaves the other absent. -/
theorem clear_assignments_spec_witness :
    (handleAction ⟨"u1", "now"⟩ ⟨witnessSchedule, [], []⟩
        { action := some "clear-schedule-assignments",
          dates := some ["02-03-2026", "18-02-2026"] }).resp.status = 200 ∧
      (∀ k, (handleAction ⟨"u1", "now"⟩ ⟨witnessSchedule, [], []⟩
          { action := some "clear-schedule-assignments",
            dates := some ["02-03-2026", "18-02-2026"] }).store.schedule k =
        if k ∈ ["02-03-2026", "18-02-2026"] then (witnessSchedule k).map clearDay
        else witnessSchedule k) ∧
      (handleAction ⟨"u1", "now"⟩ ⟨witnessSchedule, [], []⟩
        { action := some "clear-schedule-assignments",
          dates := some ["02-03-2026", "18-02-2026"] }).store.clients = [] ∧
      (handleAction ⟨"u1", "now"⟩ ⟨witnessSchedule, [], []⟩
        { action := some "clear-schedule-assignments",
          dates := some ["02-03-2026", "18-02-2026"] }).store.recurringJobs = [] ∧
      (handleAction ⟨"u1", "now"⟩ ⟨witnessSchedule, [], []⟩
        { action := some "clear-schedule-assignments",
          dates := some ["02-03-2026", "18-02-2026"] }).writes =
        (if (["02-03-2026", "18-02-2026"].any
            (fun d => ((⟨witnessSchedule, [], []⟩ : Store).schedule d).isSome))
          then ["data/schedule.json"] else []) :=
  clear_assignments_spec ⟨"u1", "now"⟩ ⟨witnessSchedule, [], []⟩
    { action := some "clear-schedule-assignments",
      dates := some ["02-03-2026", "18-02-2026"] } ["02-03-2026", "18-02-2026"]
    rfl rfl (by decide)

/-! ### C7: add-job rejects workers outside the roster -/

/-- **C7.**  `addJob` with a selected worker outside the roster fails with a
400 whose message names the (first) offending worker, and the store is
returned unmodified with no write. -/
theorem addJob_invalid_worker (env : Env) (store : Store) (body : Body) (ws : List String)
    (w : String) (ha : body.action = some "add-job")
    (hd : isValidDateField body.date = true) (ht : isValidTeam body.team_id = true)
    (haddr : validateAddress body.address = none)
    (hws : body.selected_workers = some ws)
    (hw : ws.find? (fun w => !(WORKER_ROSTER.contains w)) = some w) :
    handleAction env store body = errorResult store 400
        ("Invalid worker name: " ++ w ++ ". Must be one of: " ++
          String.intercalate ", " WORKER_ROSTER) ∧
      (handleAction env store body).store = store ∧
      (handleAction env store body).writes = [] := by
  have hdisp : handleAction env store body = addJobAction env store body := by
    simp [handleAction, ha]
  have hmain : addJobAction env store body = errorResult store 400
      ("Invalid worker name: " ++ w ++ ". Must be one of: " ++
        String.intercalate ", " WORKER_ROSTER) := by
    unfold addJobAction
    rw [if_neg (by simp [hd]), if_neg (by simp [ht]), haddr]
    simp only [hws]
    have hv : validateWorkers ws = some ("Invalid worker name: " ++ w ++ ". Must be one of: " ++
        String.intercalate ", " WORKER_ROSTER) := by
      unfold validateWorkers
      rw [hw]
    rw [hv]
  rw [hdisp, hmain]
  exact ⟨rfl, rfl, rfl⟩

/-- Witness for C7: the claim's "Zed" scenario. -/
theorem addJob_invalid_worker_witness :
    handleAction ⟨"u1", "now"⟩ ⟨witnessSchedule, [], []⟩
        { action := some "add-job", date := some "02-03-2026", team_id := some "Team_A",
          address := some { street := some "Main Street", house_number := some "42" },
          selected_workers := some ["Zed"] } =
      errorResult ⟨witnessSchedule, [], []⟩ 400
        ("Invalid worker name: " ++ "Zed" ++ ". Must be one of: " ++
          String.intercalate ", " WORKER_ROSTER) :=
  (addJob_invalid_worker ⟨"u1", "now"⟩ ⟨witnessSchedule, [], []⟩
    { action := some "add-job", date := some "02-03-2026", team_id := some "Team_A",
      address := some { street := some "Main Street", house_number := some "42" },
      selected_workers := some ["Zed"] } ["Zed"] "Zed"
    rfl (by decide) (by decide) (by decide) rfl (by decide)).1

/-! ### C6: invalid frequency handling -/

lemma patchRule_frequency (body : Body) (f : String) (hf : body.frequency = some f)
    (hnot : f ∉ ["weekly", "fortnightly"]) (r : RecurringRule) :
    (patchRule body r).frequency = r.frequency := by
  have hcond : ¬(body.frequency ≠ none ∧ (body.frequency.getD "") ∈ ["weekly", "fortnightly"]) := by
    rintro ⟨-, hin⟩
    rw [hf] at hin
    exact hnot hin
  simp only [patchRule]
  rw [if_neg hcond]
  repeat' split
  all_goals rfl

/-- **C6** (amended).  `add-recurring-job` rejects an invalid frequency with a
400 naming the field and does not touch the store; `edit-recurring-job`
instead *silently drops* an invalid frequency value from the patch: the call
succeeds with 200, and the stored rule's frequency is unchanged. -/
theorem invalid_frequency_handling :
    (∀ (env : Env) (store : Store) (body : Body) (f : String),
        body.action = some "add-recurring-job" → body.frequency = some f →
        f ∉ ["weekly", "fortnightly"] →
        truthyS body.street = true → truthyS body.house_number = true →
        truthyS body.team_id = true → truthyS body.start_date = true →
        truthyS body.frequency = true →
        isValidDateField body.start_date = true → isValidTeam body.team_id = true →
        handleAction env store body =
          errorResult store 400 "frequency must be \"weekly\" or \"fortnightly\".") ∧
      (∀ (env : Env) (store : Store) (body : Body) (f rid : String) (r : RecurringRule),
        body.action = some "edit-recurring-job" → body.rule_id = some rid → rid ≠ "" →
        body.frequency = some f → f ∉ ["weekly", "fortnightly"] →
        store.recurringJobs.find? (fun q => q.id == rid) = some r →
        (handleAction env store body).resp.status = 200 ∧
          (handleAction env store body).resp.error = none ∧
          (handleAction env store body).store.recurringJobs =
            setFirstBy (fun q => q.id == rid) (patchRule body) store.recurringJobs ∧
          (patchRule body r).frequency = r.frequency) := by
  constructor
  · intro env store body f ha hf hnot h1 h2 h3 h4 h5 h6 h7
    have hdisp : handleAction env store body = addRecurringJobAction env store body := by
      simp [handleAction, ha]
    rw [hdisp]
    unfold addRecurringJobAction
    rw [if_neg (by simp [h1, h2, h3, h4, h5]), if_neg (by simp [h6]), if_neg (by simp [h7]),
      if_pos]
    rw [hf]
    simpa using hnot
  · intro env store body f rid r ha hrid hne hf hnot hfind
    have hdisp : handleAction env store body = editRecurringJobAction store body := by
      simp [handleAction, ha]
    rw [hdisp]
    simp only [editRecurringJobAction]
    rw [if_neg (by simp [truthyS, hrid, hne])]
    have hgd : body.rule_id.getD "" = rid := by rw [hrid]; rfl
    rw [hgd, hfind]
    exact ⟨rfl, rfl, rfl, patchRule_frequency body f hf hnot r⟩

/-- Witness for C6's amended statement: a "daily" frequency is rejected by
add-recurring-job, and ignored (rule unchanged) by edit-recurring-job. -/
theorem invalid_frequency_handling_witness :
    handleAction ⟨"u1", "now"⟩ ⟨witnessSchedule, [], []⟩
        { action := some "add-recurring-job", street := some "Oak Ave",
          house_number := some "5", team_id := some "Team_A",
          start_date := some "02-03-2026", frequency := some "daily" } =
      errorResult ⟨witnessSchedule, [], []⟩ 400
        "frequency must be \"weekly\" or \"fortnightly\"." :=
  invalid_frequency_handling.1 ⟨"u1", "now"⟩ ⟨witnessSchedule, [], []⟩
    { action := some "add-recurring-job", street := some "Oak Ave",
      house_number := some "5", team_id := some "Team_A",
      start_date := some "02-03-2026", frequency := some "daily" } "daily"
    rfl rfl (by decide) (by decide) (by decide) (by decide) (by decide) (by decide)
    (by decide) (by decide)

/-- C6 as frozen is false on the code: an edit-recurring-job patch with the
invalid frequency "daily" returns 200 with no error and leaves the rule's
frequency unchanged — the invalid value is silently dropped, not reported. -/
theorem invalid_frequency_counterexample :
    (handleAction ⟨"u1", "now"⟩ ⟨fun _ => none, [], [fortnightlyOakRule]⟩
        { action := some "edit-recurring-job", rule_id := some "rule-1",
          frequency := some "daily" }).resp.status = 200 ∧
      (handleAction ⟨"u1", "now"⟩ ⟨fun _ => none, [], [fortnightlyOakRule]⟩
        { action := some "edit-recurring-job", rule_id := some "rule-1",
          frequency := some "daily" }).resp.error = none ∧
      (handleAction ⟨"u1", "now"⟩ ⟨fun _ => none, [], [fortnightlyOakRule]⟩
        { action := some "edit-recurring-job", rule_id := some "rule-1",
          frequency := some "daily" }).store.recurringJobs = [fortnightlyOakRule] :=
  ⟨rfl, rfl, by decide⟩

/-! ### C10: unknown actions fall through to add-job -/

lemma addJobCore_appends (env : Env) (store : Store) (body : Body) (ws : List String) :
    ∃ j, (addJobCore env store body ws).resp.status = 201 ∧
      (addJobCore env store body ws).resp.job = some j ∧
      jobsAt (addJobCore env store body ws).store.schedule (body.date.getD "")
          (body.team_id.getD "") =
        jobsAt store.schedule (body.date.getD "") (body.team_id.getD "") ++ [j] := by
  refine ⟨_, rfl, rfl, ?_⟩
  rw [← jobsAt_eq_as0 store.schedule (body.date.getD "") (body.team_id.getD "")]
  simp only [addJobCore, jobsAt, updateSchedule, updateDay, eq_self_iff_true, if_true]
  by_cases hws : ws.length > 0 <;> simp [hws]

/-- **C10.**  A request whose `action` is absent, empty, or not one of the
eleven recognized action names is not rejected: it is processed by the
`add-job` fallthrough, which either fails add-job validation with a 400 (store
untouched, no write) or appends a new job to the requested slot. -/
theorem unknown_action_falls_through :
    (∀ (env : Env) (store : Store) (body : Body), body.action = none →
        handleAction env store body = addJobAction env store body) ∧
      (∀ (env : Env) (store : Store) (body : Body) (a : String), body.action = some a →
        a ∉ ["update-workers", "clear-schedule-assignments", "delete-job", "cancel-job",
          "add-client", "delete-client", "edit-client", "add-recurring-job",
          "edit-recurring-job", "delete-recurring-job", "cancel-recurring-instance"] →
        handleAction env store body = addJobAction env store body) ∧
      (∀ (env : Env) (store : Store) (body : Body),
        ((addJobAction env store body).resp.status = 400 ∧
            (addJobAction env store body).store = store ∧
            (addJobAction env store body).writes = []) ∨
          ∃ j, (addJobAction env store body).resp.status = 201 ∧
            (addJobAction env store body).resp.job = some j ∧
            jobsAt (addJobAction env store body).store.schedule (body.date.getD "")
                (body.team_id.getD "") =
              jobsAt store.schedule (body.date.getD "") (body.team_id.getD "") ++ [j]) := by
  refine ⟨?_, ?_, ?_⟩
  · intro env store body h
    simp [handleAction, h]
  · intro env store body a h hmem
    simp only [List.mem_cons, List.mem_singleton] at hmem
    push_neg at hmem
    obtain ⟨h1, h2, h3, h4, h5, h6, h7, h8, h9, h10, h11⟩ := hmem
    by_cases ha0 : a = ""
    · simp [handleAction, h, ha0]
    · simp [handleAction, h, ha0, h1, h2, h3, h4, h5, h6, h7, h8, h9, h10, h11]
  · intro env store body
    by_cases hd : (!isValidDateField body.date) = true
    · have he : addJobAction env store body = errorResult store 400
          "Invalid or missing \"date\" field. Must be in DD-MM-YYYY format." := by
        simp [addJobAction, hd]
      rw [he]; exact Or.inl ⟨rfl, rfl, rfl⟩
    · by_cases ht : (!isValidTeam body.team_id) = true
      · have he : addJobAction env store body = errorResult store 400
            "Invalid or missing \"team_id\" field. Must be \"Team_A\" or \"Team_B\"." := by
          simp [addJobAction, hd, ht]
        rw [he]; exact Or.inl ⟨rfl, rfl, rfl⟩
      · cases haddr : validateAddress body.address with
        | some msg =>
          have he : addJobAction env store body = errorResult store 400 msg := by
            simp [addJobAction, hd, ht, haddr]
          rw [he]; exact Or.inl ⟨rfl, rfl, rfl⟩
        | none =>
          cases hws : body.selected_workers with
          | none =>
            have he : addJobAction env store body = addJobCore env store body [] := by
              simp [addJobAction, hd, ht, haddr, hws]
            rw [he]; exact Or.inr (addJobCore_appends env store body [])
          | some ws =>
            cases hv : validateWorkers ws with
            | some msg =>
              have he : addJobAction env store body = errorResult store 400 msg := by
                simp [addJobAction, hd, ht, haddr, hws, hv]
              rw [he]; exact Or.inl ⟨rfl, rfl, rfl⟩
            | none =>
              have he : addJobAction env store body = addJobCore env store body ws := by
                simp [addJobAction, hd, ht, haddr, hws, hv]
              rw [he]; exact Or.inr (addJobCore_appends env store body ws)

/-- Witness for C10: a misspelled action `"ad-job"` with a valid add-job body
is handled by the add-job fallthrough. -/
theorem unknown_action_falls_through_witness :
    handleAction ⟨"u1", "now"⟩ ⟨witnessSchedule, [], []⟩
        { action := some "ad-job", date := some "02-03-2026", team_id := some "Team_A",
          address := some { street := some "Main Street", house_number := some "42" } } =
      addJobAction ⟨"u1", "now"⟩ ⟨witnessSchedule, [], []⟩
        { action := some "ad-job", date := some "02-03-2026", team_id := some "Team_A",
          address := some { street := some "Main Street", house_number := some "42" } } :=
  unknown_action_falls_through.2.1 ⟨"u1", "now"⟩ ⟨witnessSchedule, [], []⟩
    { action := some "ad-job", date := some "02-03-2026", team_id := some "Team_A",
      address := some { street := some "Main Street", house_number := some "42" } }
    "ad-job" rfl (by decide)

/-! ### C5: cancel-job idempotence -/

/-- The predicate the `cancel-job` action uses to locate the job. -/
def cancelMatches (jid : String) : Job → Bool := fun a => a.id == jid

/-- The per-job update the `cancel-job` action applies. -/
def markCancelled : Job → Job := fun a => { a with status := "cancelled" }

/-- The addresses array after the `cancel-job` write. -/
def cancelledAddresses (jid : String) (addresses : List Job) : List Job :=
  setFirstBy (cancelMatches jid) markCancelled addresses

/-- The store after the `cancel-job` write branch. -/
def cancelStore (store : Store) (body : Body) (day : Day) (slot : Slot)
    (addresses : List Job) : Store :=
  { store with
    schedule :=
      updateSchedule store.schedule (body.date.getD "")
        (updateDay day (body.team_id.getD "")
          { slot with
            addresses := some (cancelledAddresses (body.job_id.getD "") addresses) }) }

lemma find_setFirstBy {α : Type} (p : α → Bool) (f : α → α) (hp : ∀ a, p (f a) = p a) :
    ∀ as : List α, (setFirstBy p f as).find? p = (as.find? p).map f := by
  intro as
  induction as with
  | nil => rfl
  | cons a rest ih =>
    by_cases hpa : p a = true
    · simp only [setFirstBy]
      rw [if_pos hpa, List.find?_cons_of_pos _ (by rw [hp a]; exact hpa),
        List.find?_cons_of_pos _ hpa]
      rfl
    · simp only [setFirstBy]
      rw [if_neg hpa, List.find?_cons_of_neg _ hpa, List.find?_cons_of_neg _ hpa, ih]

lemma cancelJob_already (store : Store) (body : Body) (day : Day) (slot : Slot)
    (addresses : List Job) (job : Job)
    (hv1 : isValidDateField body.date = true) (hv2 : isValidTeam body.team_id = true)
    (hv3 : truthyS body.job_id = true)
    (hsched : store.schedule (body.date.getD "") = some day)
    (hday : day (body.team_id.getD "") = some slot)
    (haddr : slot.addresses = some addresses)
    (hfind : addresses.find? (fun a => a.id == body.job_id.getD "") = some job)
    (hstat : job.status = "cancelled") :
    cancelJobAction store body =
      ⟨{ status := 200, message := some "Job cancelled successfully", job := some job },
        store, []⟩ := by
  simp [cancelJobAction, hv1, hv2, hv3, hsched, hday, haddr, hfind, hstat]

lemma cancelJob_cases (store : Store) (body : Body) :
    ((cancelJobAction store body).store = store ∧ (cancelJobAction store body).writes = []) ∨
      (∃ day slot addresses job,
        isValidDateField body.date = true ∧ isValidTeam body.team_id = true ∧
        truthyS body.job_id = true ∧
        store.schedule (body.date.getD "") = some day ∧
        day (body.team_id.getD "") = some slot ∧
        slot.addresses = some addresses ∧
        addresses.find? (fun a => a.id == body.job_id.getD "") = some job ∧
        job.status ≠ "cancelled" ∧
        cancelJobAction store body =
          ⟨{ status := 200, message := some "Job cancelled successfully",
              job := some (markCancelled job) },
            cancelStore store body day slot addresses, ["data/schedule.json"]⟩) := by
  by_cases hv1 : isValidDateField body.date = true
  · by_cases hv2 : isValidTeam body.team_id = true
    · by_cases hv3 : truthyS body.job_id = true
      · cases hsched : store.schedule (body.date.getD "") with
        | none =>
          have he : cancelJobAction store body = errorResult store 404
              ("No schedule entry found for " ++ body.date.getD "" ++ " / " ++
                body.team_id.getD "") := by
            simp [cancelJobAction, hv1, hv2, hv3, hsched]
          left; rw [he]; exact ⟨rfl, rfl⟩
        | some day =>
          cases hday : day (body.team_id.getD "") with
          | none =>
            have he : cancelJobAction store body = errorResult store 404
                ("No schedule entry found for " ++ body.date.getD "" ++ " / " ++
                  body.team_id.getD "") := by
              simp [cancelJobAction, hv1, hv2, hv3, hsched, hday]
            left; rw [he]; exact ⟨rfl, rfl⟩
          | some slot =>
            cases haddr : slot.addresses with
            | none =>
              have he : cancelJobAction store body = errorResult store 404
                  "No addresses array found for this team/date" := by
                simp [cancelJobAction, hv1, hv2, hv3, hsched, hday, haddr]
              left; rw [he]; exact ⟨rfl, rfl⟩
            | some addresses =>
              cases hfind : addresses.find? (fun a => a.id == body.job_id.getD "") with
              | none =>
                have he : cancelJobAction store body = errorResult store 404
                    ("Job with id \"" ++ body.job_id.getD "" ++ "\" not found") := by
                  simp [cancelJobAction, hv1, hv2, hv3, hsched, hday, haddr, hfind]
                left; rw [he]; exact ⟨rfl, rfl⟩
              | some job =>
                by_cases hstat : job.status = "cancelled"
                · have he : cancelJobAction store body =
                      ⟨{ status := 200, message := some "Job cancelled successfully",
                          job := some job }, store, []⟩ := by
                    simp [cancelJobAction, hv1, hv2, hv3, hsched, hday, haddr, hfind, hstat]
                  left; rw [he]; exact ⟨rfl, rfl⟩
                · right
                  refine ⟨day, slot, addresses, job, hv1, hv2, hv3, rfl, hday, haddr,
                    hfind, hstat, ?_⟩
                  simp [cancelJobAction, cancelStore, cancelledAddresses, cancelMatches,
                    markCancelled, hv1, hv2, hv3, hsched, hday, haddr, hfind, hstat]
                  rfl
      · have he : cancelJobAction store body = errorResult store 400
            "Missing or invalid \"job_id\" field." := by
          simp [cancelJobAction, hv1, hv2, hv3]
        left; rw [he]; exact ⟨rfl, rfl⟩
    · have he : cancelJobAction store body = errorResult store 400
          "Invalid or missing \"team_id\" field." := by
        simp [cancelJobAction, hv1, hv2]
      left; rw [he]; exact ⟨rfl, rfl⟩
  · have he : cancelJobAction store body = errorResult store 400
        "Invalid or missing \"date\" field." := by
      simp [cancelJobAction, hv1]
    left; rw [he]; exact ⟨rfl, rfl⟩

lemma cancelJob_second (store : Store) (body : Body) :
    (cancelJobAction (cancelJobAction store body).store body).store =
        (cancelJobAction store body).store ∧
      (cancelJobAction (cancelJobAction store body).store body).writes = [] := by
  rcases cancelJob_cases store body with ⟨hst, hw⟩ |
    ⟨day, slot, addresses, job, hv1, hv2, hv3, hsched, hday, haddr, hfind, hstat, he⟩
  · rw [hst]
    exact ⟨hst, hw⟩
  · have hfind2 : (cancelledAddresses (body.job_id.getD "") addresses).find?
        (cancelMatches (body.job_id.getD "")) = some (markCancelled job) := by
      have hfind1 : addresses.find? (cancelMatches (body.job_id.getD "")) = some job := hfind
      simp only [cancelledAddresses]
      rw [find_setFirstBy (cancelMatches (body.job_id.getD "")) markCancelled
          (fun a => rfl) addresses,
        hfind1]
      rfl
    have hst : (cancelJobAction store body).store =
        cancelStore store body day slot addresses := by
      rw [he]
    rw [hst]
    rw [cancelJob_already (cancelStore store body day slot addresses) body
      (updateDay day (body.team_id.getD "")
        { slot with
          addresses := some (cancelledAddresses (body.job_id.getD "") addresses) })
      { slot with
        addresses := some (cancelledAddresses (body.job_id.getD "") addresses) }
      (cancelledAddresses (body.job_id.getD "") addresses)
      (markCancelled job)
      hv1 hv2 hv3 (by simp [cancelStore, updateSchedule]) (by simp [updateDay]) rfl
      hfind2 rfl]
    exact ⟨rfl, rfl⟩

/-- **C5.**  `cancel-job` is idempotent: after one call, a second call with the
same date, team, and job id leaves the store exactly as the first call left it
and performs no persistence write; and cancelling an already-cancelled job is a
no-op success returning the current job, not an error. -/
theorem cancel_job_idempotent :
    (∀ (env env' : Env) (store : Store) (body : Body), body.action = some "cancel-job" →
        (handleAction env' (handleAction env store body).store body).store =
            (handleAction env store body).store ∧
          (handleAction env' (handleAction env store body).store body).writes = []) ∧
      (∀ (env : Env) (store : Store) (body : Body) (day : Day) (slot : Slot)
          (addresses : List Job) (job : Job), body.action = some "cancel-job" →
          isValidDateField body.date = true → isValidTeam body.team_id = true →
          truthyS body.job_id = true →
          store.schedule (body.date.getD "") = some day →
          day (body.team_id.getD "") = some slot →
          slot.addresses = some addresses →
          addresses.find? (fun a => a.id == body.job_id.getD "") = some job →
          job.status = "cancelled" →
          handleAction env store body =
            ⟨{ status := 200, message := some "Job cancelled successfully", job := some job },
              store, []⟩) := by
  constructor
  · intro env env' store body ha
    have hd1 : handleAction env store body = cancelJobAction store body := by
      simp [handleAction, ha]
    have hd2 : handleAction env' (cancelJobAction store body).store body =
        cancelJobAction (cancelJobAction store body).store body := by
      simp [handleAction, ha]
    rw [hd1, hd2]
    exact cancelJob_second store body
  · intro env store body day slot addresses job ha hv1 hv2 hv3 hsched hday haddr hfind hstat
    have hd : handleAction env store body = cancelJobAction store body := by
      simp [handleAction, ha]
    rw [hd]
    exact cancelJob_already store body day slot addresses job hv1 hv2 hv3 hsched hday haddr
      hfind hstat

def cancelledJob : Job :=
  { id := "j9", street := "Main Street", house_number := "42", status := "cancelled",
    maps_url := "" }

def cancelledSchedule : Schedule := fun k =>
  if k = "02-03-2026" then
    some (fun t => if t = "Team_A" then
      some { assigned_workers := some [], addresses := some [cancelledJob] } else none)
  else none

def cancelBody : Body :=
  { action := some "cancel-job", date := some "02-03-2026", team_id := some "Team_A",
    job_id := some "j9" }

/-- Witness for C5: on a concrete store holding an already-cancelled job, a
repeat call changes nothing and writes nothing, and the cancellation of the
cancelled job itself succeeds with the stored job. -/
theorem cancel_job_idempotent_witness :
    ((handleAction ⟨"u2", "t2"⟩
          (handleAction ⟨"u1", "t1"⟩ ⟨cancelledSchedule, [], []⟩ cancelBody).store
          cancelBody).store =
        (handleAction ⟨"u1", "t1"⟩ ⟨cancelledSchedule, [], []⟩ cancelBody).store ∧
      (handleAction ⟨"u2", "t2"⟩
          (handleAction ⟨"u1", "t1"⟩ ⟨cancelledSchedule, [], []⟩ cancelBody).store
          cancelBody).writes = []) ∧
      handleAction ⟨"u1", "t1"⟩ ⟨cancelledSchedule, [], []⟩ cancelBody =
        ⟨{ status := 200, message := some "Job cancelled successfully",
            job := some cancelledJob },
          ⟨cancelledSchedule, [], []⟩, []⟩ :=
  ⟨cancel_job_idempotent.1 ⟨"u1", "t1"⟩ ⟨"u2", "t2"⟩ ⟨cancelledSchedule, [], []⟩ cancelBody rfl,
    cancel_job_idempotent.2 ⟨"u1", "t1"⟩ ⟨cancelledSchedule, [], []⟩ cancelBody
      (fun t => if t = "Team_A" then
        some { assigned_workers := some [], addresses := some [cancelledJob] } else none)
      { assigned_workers := some [], addresses := some [cancelledJob] }
      [cancelledJob] cancelledJob
      rfl (by decide) (by decide) (by decide) rfl rfl rfl (by decide) rfl⟩
